import Mathlib

set_option maxHeartbeats 1000000
set_option maxRecDepth 8000

set_option allowUnsafeReducibility true in
attribute [semireducible] Rat.mul Rat.add Rat.sub Rat.inv Rat.div

/-!
Verification of the shading and palettization pipeline of gorender
(src/internal/sprite/shader.go, package sprite).

Modelling conventions, applied throughout:
* Go float64 values are modelled as rationals (exact arithmetic); the
  constants that appear in the source (3.0/16 and friends) are exactly
  representable.
* Go byte values are modelled as naturals (all byte-valued data stays below
  256 in the program; the one place the source converts a wider int to byte,
  getBestIndex, models the conversion explicitly with a mod 256).
* Go int values are modelled as Int where they can go negative (Region,
  Depth, render coordinates) and as Nat for the counters that only ever grow.
* Pointer identity of colour.PaletteRange values (which the source compares
  with == and !=) is modelled by referring to ranges through an optional
  index into the palette's range table, as the spec itself recommends; two
  nil pointers compare equal in Go, and none = none here.
* Division by zero yields 0 in the rational model where Go float division
  would give an infinity or NaN; no claim in scope exercises those inputs.
-/

namespace Gorender

/-- Modelled from the spec: colour.RGB (the colour package is not under
src/). A triple of components in the 0..65535 value space with
component-wise operations (spec section 3). -/
structure RGB where
  R : ℚ
  G : ℚ
  B : ℚ
deriving DecidableEq

def RGB.zero : RGB := ⟨0, 0, 0⟩

/-- Modelled from the spec: component-wise addition of colour.RGB. -/
def RGB.Add (a b : RGB) : RGB := ⟨a.R + b.R, a.G + b.G, a.B + b.B⟩

/-- Modelled from the spec: component-wise subtraction of colour.RGB. -/
def RGB.Subtract (a b : RGB) : RGB := ⟨a.R - b.R, a.G - b.G, a.B - b.B⟩

/-- Modelled from the spec: scalar multiplication of colour.RGB. -/
def RGB.MultiplyBy (a : RGB) (q : ℚ) : RGB := ⟨a.R * q, a.G * q, a.B * q⟩

/-- Modelled from the spec: clamping one component to the 0..65535 range
(spec section 7: out-of-range RGB after arithmetic is clamped). -/
def clampComponent (q : ℚ) : ℚ := max 0 (min q 65535)

/-- Modelled from the spec: colour.ClampRGB, component-wise clamp. -/
def ClampRGB (a : RGB) : RGB :=
  ⟨clampComponent a.R, clampComponent a.G, clampComponent a.B⟩

/-- Modelled from the spec: the divide-and-clamp operation of colour.RGB
(divide each component by the scalar, then clamp to range). -/
def RGB.DivideAndClamp (a : RGB) (d : ℚ) : RGB :=
  ClampRGB ⟨a.R / d, a.G / d, a.B / d⟩

/-- Modelled from the spec: colour.PaletteRange, a contiguous interval of
palette indices with company-colour and animated flags (spec section 3). -/
structure PaletteRange where
  Start : ℕ
  End : ℕ
  IsPrimaryCompanyColour : Bool
  IsSecondaryCompanyColour : Bool
  IsAnimatedLight : Bool
deriving DecidableEq

/-- Modelled from the spec: the empty default range with all flags false,
used where the source substitutes a fresh empty range for a nil pointer. -/
def emptyRange : PaletteRange := ⟨0, 0, false, false, false⟩

/-- Modelled from the spec: colour.PaletteEntry carries an RGB colour and an
optional reference to a PaletteRange. The reference is an index into the
palette's range table so that Go pointer identity becomes index equality. -/
structure PaletteEntry where
  rgb : RGB
  range : Option ℕ
deriving DecidableEq

/-- Mirrors the GetRGB accessor the source calls on palette entries. -/
def PaletteEntry.GetRGB (e : PaletteEntry) : RGB := e.rgb

/-- Modelled from the spec: colour.Palette with its entry table, range
table, the three palette subset colour lists, and the IsRenderable and
IsSpecialColour predicates that the source consults (spec sections 3, 6). -/
structure Palette where
  Entries : List PaletteEntry
  Ranges : List PaletteRange
  Regular : List RGB
  PrimaryCC : List RGB
  SecondaryCC : List RGB
  Renderable : ℕ → Bool
  Special : ℕ → Bool

/-- Entry lookup; out-of-range indexing (a Go panic) yields a zero entry. -/
def Palette.entry (p : Palette) (i : ℕ) : PaletteEntry :=
  p.Entries.getD i ⟨RGB.zero, none⟩

/-- The range reference of the entry at index i (Entries[i].Range). -/
def Palette.rangeId (p : Palette) (i : ℕ) : Option ℕ := (p.entry i).range

/-- Dereferences a range handle; none (a nil pointer in Go) and dangling
handles give the empty default range. The source only dereferences after
substituting an empty range for nil (ditherOutput lines 321-323). -/
def Palette.rangeData (p : Palette) (r : Option ℕ) : PaletteRange :=
  match r with
  | none => emptyRange
  | some k => p.Ranges.getD k emptyRange

/-- Modelled from the spec: manifest tunables consumed by the shader
(spec sections 4.1, 6). -/
structure Manifest where
  Accuracy : ℚ
  EdgeThreshold : ℚ
  HardEdgeThreshold : ℚ
  RecoveredVoxelSuppression : ℚ
  DetailBoost : ℚ
  FadeToBlack : Bool
  SoftenEdges : Bool

/-- Modelled from the spec: manifest.Definition carrying the palette, scale,
debug flag and manifest (spec section 6). -/
structure Definition where
  Palette : Palette
  Scale : ℚ
  Debug : Bool
  Manifest : Manifest

/-- Mirrors the SoftenEdges accessor method of manifest.Definition. -/
def Definition.SoftenEdges (d : Definition) : Bool := d.Manifest.SoftenEdges

/-- Modelled from the spec: manifest.Sprite offsets (pre-scale). -/
structure Sprite where
  OffsetX : ℚ
  OffsetY : ℚ

/-- Go conversion int(q) of a float64, truncating toward zero. -/
def ratTrunc (q : ℚ) : ℤ := if 0 ≤ q then ⌊q⌋ else -⌊-q⌋

/-- Modelled from the spec: one ray sample (spec section 4.1). The fields
after Detail model the per-sample outputs of the colouring and debug
projection functions (Colour, Normal, Depth, ...) that live outside src/;
per the spec they are per-sample data owned by the palette and raycaster. -/
structure Sample where
  Collision : Bool
  Index : ℕ
  Depth : ℤ
  Influence : ℚ
  Count : ℕ
  IsRecovered : Bool
  Detail : ℚ
  ColourRegular : RGB
  ColourSpecial : RGB
  NormalC : RGB
  AveragedNormalC : RGB
  DepthC : RGB
  OcclusionC : RGB
  LightingC : RGB
  ShadowC : RGB
  DetailC : RGB
deriving DecidableEq

/-- Modelled from the spec: Colour(sample, def, regular, influence) adds the
sample's regular or special colour contribution weighted by the effective
influence (spec section 4.1 step 4: two colouring rules owned by the
palette, applied with the sample's weight). -/
def Colour (s : Sample) (_d : Definition) (regular : Bool) (influence : ℚ) : RGB :=
  (if regular then s.ColourRegular else s.ColourSpecial).MultiplyBy influence

/-- Modelled from the spec: per-sample debug projection Normal. -/
def Normal (s : Sample) : RGB := s.NormalC

/-- Modelled from the spec: per-sample debug projection AveragedNormal. -/
def AveragedNormal (s : Sample) : RGB := s.AveragedNormalC

/-- Modelled from the spec: per-sample debug projection Depth. -/
def Depth (s : Sample) : RGB := s.DepthC

/-- Modelled from the spec: per-sample debug projection Occlusion. -/
def Occlusion (s : Sample) : RGB := s.OcclusionC

/-- Modelled from the spec: per-sample debug projection Lighting. -/
def Lighting (s : Sample) : RGB := s.LightingC

/-- Modelled from the spec: per-sample debug projection Shadow. -/
def Shadow (s : Sample) : RGB := s.ShadowC

/-- Modelled from the spec: per-sample debug projection Detail. -/
def Detail (s : Sample) : RGB := s.DetailC

/-- Modelled from the spec: FloatValue broadcasts a scalar to all three
channels (used for the Transparency debug output). -/
def FloatValue (v : ℚ) : RGB := ⟨v, v, v⟩

/-- The per-pixel RenderInfo: the list of ray samples for one pixel. -/
def RenderInfo : Type := List Sample

/-- The raycaster output grid, indexed [rx][ry]. -/
def RenderOutput : Type := ℕ → ℕ → RenderInfo

/-- ShaderInfo of shader.go lines 11-29. -/
structure ShaderInfo where
  Colour : RGB
  SpecialColour : RGB
  Alpha : ℚ
  Specialness : ℚ
  Normal : RGB
  AveragedNormal : RGB
  Depth : RGB
  Occlusion : RGB
  Lighting : RGB
  Shadowing : RGB
  Detail : RGB
  Transparency : RGB
  Region : ℤ
  ModalIndex : ℕ
  DitheredIndex : ℕ
  IsMaskColour : Bool
  IsAnimated : Bool
deriving DecidableEq

/-- The zero value ShaderInfo{} of Go. -/
def zeroShaderInfo : ShaderInfo :=
  ⟨RGB.zero, RGB.zero, 0, 0, RGB.zero, RGB.zero, RGB.zero, RGB.zero, RGB.zero,
   RGB.zero, RGB.zero, RGB.zero, 0, 0, 0, false, false⟩

/-- ShaderOutput as a function grid; the Go slice-of-slices starts zeroed
and every access in the source is in bounds. -/
def Grid : Type := ℕ → ℕ → ShaderInfo

def zeroGrid : Grid := fun _ _ => zeroShaderInfo

def setPix (g : Grid) (x y : ℕ) (v : ShaderInfo) : Grid :=
  Function.update g x (Function.update (g x) y v)

/-- ColourDistance of shader.go lines 44-47. -/
structure ColourDistance where
  Low : ℚ
  High : ℚ
deriving DecidableEq

/-- MultiplyColours of shader.go lines 49-63. -/
def MultiplyColours (cd : ColourDistance) (midpoint c : RGB) : RGB :=
  if c.R + c.G + c.B < midpoint.R + midpoint.G + midpoint.B then
    ClampRGB ⟨midpoint.R - ((midpoint.R - c.R) * cd.Low),
              midpoint.G - ((midpoint.G - c.G) * cd.Low),
              midpoint.B - ((midpoint.B - c.B) * cd.Low)⟩
  else
    ClampRGB ⟨midpoint.R + ((c.R - midpoint.R) * cd.High),
              midpoint.G + ((c.G - midpoint.G) * cd.High),
              midpoint.B + ((c.B - midpoint.B) * cd.High)⟩

/-- RegionInfo of shader.go lines 33-42. ModalCount is the Go map with its
zero default on absent keys (assignment to a nil map, a Go panic, is not
modelled; no claim in scope evaluates on such an input). -/
structure RegionInfo where
  ModalCount : ℕ → ℕ
  AverageColour : RGB
  Distance : ColourDistance
  MinIndex : ℕ
  MaxIndex : ℕ
  Size : ℕ
  SizeInRange : ℕ
  Range : Option ℕ

/-- The zero RegionInfo{} value (a read miss on the regions map). -/
def zeroRegionInfo : RegionInfo :=
  ⟨fun _ => 0, RGB.zero, ⟨0, 0⟩, 0, 0, 0, 0, none⟩

/-- The regions map of GetShaderOutput, keyed by region id. -/
def Regions : Type := ℤ → Option RegionInfo

/-- A Go map read, yielding the zero value on a miss. -/
def readRegion (rs : Regions) (k : ℤ) : RegionInfo := (rs k).getD zeroRegionInfo

def writeRegion (rs : Regions) (k : ℤ) (v : RegionInfo) : Regions :=
  Function.update rs k (some v)

/-- GetMaskIndex of shader.go lines 105-112. -/
def GetMaskIndex (s : ShaderInfo) : ℕ :=
  if s.Specialness > 0.75 ∨ s.IsAnimated then s.ModalIndex
  else if s.Specialness > 0.25 ∧ s.IsMaskColour then s.DitheredIndex
  else 0

/-- GetRegion of shader.go lines 114-120; the multiplier 65535 / 4 is Go
integer division, and Region is a Go int so % and / truncate toward zero. -/
def GetRegion (s : ShaderInfo) : RGB :=
  ⟨((s.Region.tmod 4 * (65535 / 4 : ℤ) : ℤ) : ℚ),
   (((s.Region.tdiv 4).tmod 4 * (65535 / 4 : ℤ) : ℤ) : ℚ),
   (((s.Region.tdiv 16).tmod 4 * (65535 / 4 : ℤ) : ℤ) : ℚ)⟩

/-- squareDiff of shader.go lines 428-431. -/
def squareDiff (a b : ℚ) : ℚ := (a - b) * (a - b)

/-- The magenta/white sentinel guard of getBestIndex (line 412). -/
def sentinelSkip (p : RGB) : Prop :=
  p.R > 65000 ∧ (p.G = 0 ∨ p.G > 65000) ∧ p.B > 65000

instance (p : RGB) : Decidable (sentinelSkip p) := by
  unfold sentinelSkip; infer_instance

/-- Strict comparison against the running best sum; none models the
math.MaxFloat64 starting sentinel, which every candidate sum beats. -/
def sumLt (s : ℚ) : Option ℚ → Prop
  | none => True
  | some b => s < b

instance (s : ℚ) (b : Option ℚ) : Decidable (sumLt s b) := by
  cases b <;> unfold sumLt <;> infer_instance

/-- The sum getBestIndex computes for one entry (line 416). -/
def sqDist (err p : RGB) : ℚ :=
  squareDiff err.R p.R + squareDiff err.G p.G + squareDiff err.B p.B

/-- The loop of getBestIndex (lines 410-423): idx is the index of the head
of the remaining list, best and bestSum the running state; a zero sum
breaks out of the loop returning the just-stored index. -/
def getBestIndexAux (err : RGB) : List RGB → ℕ → ℕ → Option ℚ → ℕ
  | [], _, best, _ => best
  | p :: rest, idx, best, bestSum =>
    if sentinelSkip p then getBestIndexAux err rest (idx + 1) best bestSum
    else if sumLt (sqDist err p) bestSum then
      (if sqDist err p = 0 then idx
       else getBestIndexAux err rest (idx + 1) idx (some (sqDist err p)))
    else getBestIndexAux err rest (idx + 1) best bestSum

/-- The int-valued result of the getBestIndex loop, before the byte cast. -/
def getBestIndexNat (err : RGB) (palette : List RGB) : ℕ :=
  getBestIndexAux err palette 0 0 none

/-- getBestIndex of shader.go lines 409-426; byte(bestIndex) is the Go
conversion, reducing mod 256. -/
def getBestIndex (err : RGB) (palette : List RGB) : ℕ :=
  getBestIndexNat err palette % 256

/-- Palette subset lookup by index, with the zero colour as the (never
reached in the source) out-of-bounds default. -/
def palAt (pal : List RGB) (j : ℕ) : RGB := (pal.get? j).getD RGB.zero

end Gorender

namespace Gorender

/-- Claim C8: GetMaskIndex returns ModalIndex when Specialness exceeds 0.75
or the pixel is animated, else DitheredIndex when Specialness exceeds 0.25
and the pixel is a mask colour, else 0; hence the result is always one of
0, ModalIndex, DitheredIndex, and the projection is deterministic. -/
theorem C8_mask_index_law (s : ShaderInfo) :
    GetMaskIndex s =
      (if s.Specialness > 0.75 ∨ s.IsAnimated then s.ModalIndex
       else if s.Specialness > 0.25 ∧ s.IsMaskColour then s.DitheredIndex
       else 0) ∧
    (GetMaskIndex s = 0 ∨ GetMaskIndex s = s.ModalIndex ∨
      GetMaskIndex s = s.DitheredIndex) ∧
    GetMaskIndex s = GetMaskIndex s := by
  refine ⟨rfl, ?_, rfl⟩
  unfold GetMaskIndex
  split
  · exact Or.inr (Or.inl rfl)
  · split
    · exact Or.inr (Or.inr rfl)
    · exact Or.inl rfl

/-- A concrete ShaderInfo with Region 1, for the C5 counterexample. -/
def regionOneInfo : ShaderInfo := { zeroShaderInfo with Region := 1 }

/-- Claim C5 counterexample: the claim says the red channel of
GetRegion for Region = 1 is (1 % 4) * 16384 = 16384, but the source
multiplies by 65535 / 4 = 16383 in integer arithmetic, so the channel is
16383. -/
theorem C5_counterexample :
    (GetRegion regionOneInfo).R = 16383 ∧ (16383 : ℚ) ≠ 16384 := by
  constructor
  · rfl
  · decide

/-- Claim C5 amended: GetRegion encodes Region in base 4 with multiplier
65535 / 4 = 16383 (Go integer division), using truncating int division and
remainder: R = (Region % 4) * 16383, G = ((Region / 4) % 4) * 16383,
B = ((Region / 16) % 4) * 16383. -/
theorem C5_get_region_encoding (s : ShaderInfo) :
    GetRegion s =
      ⟨((s.Region.tmod 4 * 16383 : ℤ) : ℚ),
       (((s.Region.tdiv 4).tmod 4 * 16383 : ℤ) : ℚ),
       (((s.Region.tdiv 16).tmod 4 * 16383 : ℤ) : ℚ)⟩ := rfl

end Gorender

namespace Gorender

theorem sqDist_nonneg (err p : RGB) : 0 ≤ sqDist err p := by
  unfold sqDist squareDiff
  have h1 := mul_self_nonneg (err.R - p.R)
  have h2 := mul_self_nonneg (err.G - p.G)
  have h3 := mul_self_nonneg (err.B - p.B)
  linarith

/-- Loop invariant proof for getBestIndexAux: scanning the suffix l that
starts at index idx of pal, with the running best/bestSum state, either
every entry of pal is skipped by the sentinel guard, or the result is an
in-bounds non-skipped index of minimal squared distance that strictly beats
every earlier non-skipped index. -/
theorem getBestIndexAux_spec (err : RGB) (pal : List RGB) :
    ∀ (l : List RGB) (idx best : ℕ) (bestSum : Option ℚ),
      (∀ k, l.get? k = pal.get? (idx + k)) →
      ((bestSum = none ∧ best = 0 ∧ ∀ j, j < idx → sentinelSkip (palAt pal j)) ∨
        (∃ s, bestSum = some s ∧ best < idx ∧ best < pal.length ∧
          ¬ sentinelSkip (palAt pal best) ∧ s = sqDist err (palAt pal best) ∧
          (∀ j, j < idx → j ≠ best → ¬ sentinelSkip (palAt pal j) →
            s ≤ sqDist err (palAt pal j)) ∧
          (∀ j, j < best → ¬ sentinelSkip (palAt pal j) →
            s < sqDist err (palAt pal j)))) →
      ((∀ j, j < pal.length → sentinelSkip (palAt pal j)) ∨
        (getBestIndexAux err l idx best bestSum < pal.length ∧
         ¬ sentinelSkip (palAt pal (getBestIndexAux err l idx best bestSum)) ∧
         (∀ j, j < pal.length → ¬ sentinelSkip (palAt pal j) →
           sqDist err (palAt pal (getBestIndexAux err l idx best bestSum)) ≤
             sqDist err (palAt pal j)) ∧
         (∀ j, j < getBestIndexAux err l idx best bestSum →
           ¬ sentinelSkip (palAt pal j) →
           sqDist err (palAt pal (getBestIndexAux err l idx best bestSum)) <
             sqDist err (palAt pal j)))) := by
  intro l
  induction l with
  | nil =>
    intro idx best bestSum hsuf hinv
    have hlen : pal.length ≤ idx := by
      by_contra hcon
      have h0 := hsuf 0
      simp only [List.get?, Nat.add_zero] at h0
      rw [List.get?_eq_get (Nat.lt_of_not_le hcon)] at h0
      exact Option.noConfusion h0
    rcases hinv with ⟨_, _, hall⟩ | ⟨s, _, _, hblen, hbskip, hs, hmin, hstrict⟩
    · exact Or.inl fun j hj => hall j (lt_of_lt_of_le hj hlen)
    · refine Or.inr ⟨hblen, hbskip, ?_, ?_⟩
      · intro j hj hjskip
        rcases eq_or_ne j best with rfl | hne
        · exact le_refl _
        · have := hmin j (lt_of_lt_of_le hj hlen) hne hjskip
          rw [hs] at this
          exact this
      · intro j hj hjskip
        have := hstrict j hj hjskip
        rw [hs] at this
        exact this
  | cons p rest ih =>
    intro idx best bestSum hsuf hinv
    have hidx : pal.get? idx = some p := by
      have h0 := hsuf 0
      simpa using h0.symm
    have hlen : idx < pal.length := by
      by_contra hcon
      rw [List.get?_eq_none.mpr (Nat.le_of_not_lt hcon)] at hidx
      exact Option.noConfusion hidx
    have hpal : palAt pal idx = p := by
      unfold palAt
      rw [hidx]
      rfl
    have hsuf2 : ∀ k, rest.get? k = pal.get? (idx + 1 + k) := by
      intro k
      have h := hsuf (k + 1)
      have h2 : (p :: rest).get? (k + 1) = rest.get? k := rfl
      rw [h2] at h
      rw [h]
      congr 1
      omega
    by_cases hskip : sentinelSkip p
    · have heq : getBestIndexAux err (p :: rest) idx best bestSum =
          getBestIndexAux err rest (idx + 1) best bestSum := by
        rw [getBestIndexAux, if_pos hskip]
      rw [heq]
      apply ih (idx + 1) best bestSum hsuf2
      rcases hinv with ⟨h1, h2, hall⟩ | ⟨s, h1, h2, h3, h4, h5, hmin, hstrict⟩
      · refine Or.inl ⟨h1, h2, ?_⟩
        intro j hj
        rcases Nat.lt_succ_iff_lt_or_eq.mp hj with hj2 | rfl
        · exact hall j hj2
        · rw [hpal]; exact hskip
      · refine Or.inr ⟨s, h1, Nat.lt_succ_of_lt h2, h3, h4, h5, ?_, hstrict⟩
        intro j hj hne hjskip
        rcases Nat.lt_succ_iff_lt_or_eq.mp hj with hj2 | rfl
        · exact hmin j hj2 hne hjskip
        · rw [hpal] at hjskip; exact absurd hskip hjskip
    · by_cases hlt : sumLt (sqDist err p) bestSum
      · by_cases hz : sqDist err p = 0
        · have heq : getBestIndexAux err (p :: rest) idx best bestSum = idx := by
            rw [getBestIndexAux, if_neg hskip, if_pos hlt, if_pos hz]
          rw [heq]
          refine Or.inr ⟨hlen, by rw [hpal]; exact hskip, ?_, ?_⟩
          · intro j hj hjskip
            rw [hpal, hz]
            exact sqDist_nonneg err _
          · intro j hj hjskip
            rw [hpal, hz]
            rcases hinv with ⟨_, _, hall⟩ | ⟨s, h1, h2, h3, h4, h5, hmin, hstrict⟩
            · exact absurd (hall j hj) hjskip
            · rw [h1] at hlt
              have hspos : 0 < s := by
                have := hlt
                unfold sumLt at this
                linarith [sqDist_nonneg err p]
              rcases eq_or_ne j best with rfl | hne
              · rw [← h5]; exact hspos
              · have := hmin j hj hne hjskip
                linarith
        · have heq : getBestIndexAux err (p :: rest) idx best bestSum =
              getBestIndexAux err rest (idx + 1) idx (some (sqDist err p)) := by
            rw [getBestIndexAux, if_neg hskip, if_pos hlt, if_neg hz]
          rw [heq]
          apply ih (idx + 1) idx (some (sqDist err p)) hsuf2
          refine Or.inr ⟨sqDist err p, rfl, Nat.lt_succ_self idx, hlen,
            by rw [hpal]; exact hskip, by rw [hpal], ?_, ?_⟩
          · intro j hj hne hjskip
            have hj2 : j < idx := by
              rcases Nat.lt_succ_iff_lt_or_eq.mp hj with hj2 | rfl
              · exact hj2
              · exact absurd rfl hne
            rcases hinv with ⟨h1, _, hall⟩ | ⟨s, h1, hb2, hb3, hb4, hb5, hmin, hstrict⟩
            · exact absurd (hall j hj2) hjskip
            · rw [h1] at hlt
              unfold sumLt at hlt
              rcases eq_or_ne j best with rfl | hneb
              · rw [← hb5]; linarith
              · have := hmin j hj2 hneb hjskip
                linarith
          · intro j hj hjskip
            rcases hinv with ⟨h1, _, hall⟩ | ⟨s, h1, hb2, hb3, hb4, hb5, hmin, hstrict⟩
            · exact absurd (hall j hj) hjskip
            · rw [h1] at hlt
              unfold sumLt at hlt
              rcases eq_or_ne j best with rfl | hneb
              · rw [← hb5]; linarith
              · have := hmin j hj hneb hjskip
                linarith
      · have heq : getBestIndexAux err (p :: rest) idx best bestSum =
            getBestIndexAux err rest (idx + 1) best bestSum := by
          rw [getBestIndexAux, if_neg hskip, if_neg hlt]
        rw [heq]
        apply ih (idx + 1) best bestSum hsuf2
        rcases hinv with ⟨h1, h2, hall⟩ | ⟨s, h1, h2, h3, h4, h5, hmin, hstrict⟩
        · rw [h1] at hlt
          exact absurd trivial hlt
        · refine Or.inr ⟨s, h1, Nat.lt_succ_of_lt h2, h3, h4, h5, ?_, hstrict⟩
          intro j hj hne hjskip
          rcases Nat.lt_succ_iff_lt_or_eq.mp hj with hj2 | rfl
          · exact hmin j hj2 hne hjskip
          · rw [h1] at hlt
            unfold sumLt at hlt
            rw [hpal]
            exact le_of_not_lt hlt

/-- Claim C6: getBestIndex returns the index of a non-skipped entry
minimising the squared RGB distance; entries matching the magenta/white
sentinel guard are skipped; the first index encountered wins ties (every
earlier non-skipped index is strictly worse); when a non-skipped entry
matches exactly (distance 0) the result is the first such index (the loop
breaks there); and for palettes of at most 256 entries the byte conversion
is the identity on the result. -/
theorem C6_get_best_index (err : RGB) (pal : List RGB)
    (hex : ∃ j, j < pal.length ∧ ¬ sentinelSkip (palAt pal j)) :
    getBestIndexNat err pal < pal.length ∧
    ¬ sentinelSkip (palAt pal (getBestIndexNat err pal)) ∧
    (∀ j, j < pal.length → ¬ sentinelSkip (palAt pal j) →
      sqDist err (palAt pal (getBestIndexNat err pal)) ≤ sqDist err (palAt pal j)) ∧
    (∀ j, j < getBestIndexNat err pal → ¬ sentinelSkip (palAt pal j) →
      sqDist err (palAt pal (getBestIndexNat err pal)) < sqDist err (palAt pal j)) ∧
    (∀ j, j < pal.length → ¬ sentinelSkip (palAt pal j) →
      sqDist err (palAt pal j) = 0 →
      getBestIndexNat err pal ≤ j ∧
        sqDist err (palAt pal (getBestIndexNat err pal)) = 0) ∧
    (pal.length ≤ 256 → getBestIndex err pal = getBestIndexNat err pal) := by
  have hspec := getBestIndexAux_spec err pal pal 0 0 none
    (fun k => by rw [Nat.zero_add]) (Or.inl ⟨rfl, rfl, fun j hj => absurd hj (Nat.not_lt_zero j)⟩)
  rcases hspec with hall | ⟨h1, h2, h3, h4⟩
  · obtain ⟨j, hj, hjskip⟩ := hex
    exact absurd (hall j hj) hjskip
  · have hres : getBestIndexAux err pal 0 0 none = getBestIndexNat err pal := rfl
    rw [hres] at h1 h2 h3 h4
    refine ⟨h1, h2, h3, h4, ?_, ?_⟩
    · intro j hj hjskip hjzero
      have hle : sqDist err (palAt pal (getBestIndexNat err pal)) ≤ 0 := by
        have := h3 j hj hjskip
        rw [hjzero] at this
        exact this
      have hzero : sqDist err (palAt pal (getBestIndexNat err pal)) = 0 :=
        le_antisymm hle (sqDist_nonneg err _)
      refine ⟨?_, hzero⟩
      by_contra hcon
      have hjlt : j < getBestIndexNat err pal := Nat.lt_of_not_le hcon
      have := h4 j hjlt hjskip
      rw [hjzero, hzero] at this
      exact absurd this (lt_irrefl 0)
    · intro hle
      unfold getBestIndex
      exact Nat.mod_eq_of_lt (lt_of_lt_of_le h1 hle)

/-- A concrete target colour for the C6 witness. -/
def c6err : RGB := ⟨5, 0, 0⟩

/-- A concrete palette subset for the C6 witness: a skipped sentinel entry
followed by two entries tied in distance to the target. -/
def c6pal : List RGB := [⟨65535, 0, 65535⟩, ⟨0, 0, 0⟩, ⟨10, 0, 0⟩]

/-- Witness for C6 at a concrete palette and target: index 1 wins the tie
against index 2 because it comes first, and the sentinel entry 0 is
skipped. -/
theorem C6_get_best_index_witness :
    getBestIndexNat c6err c6pal < c6pal.length ∧
    ¬ sentinelSkip (palAt c6pal (getBestIndexNat c6err c6pal)) ∧
    (∀ j, j < c6pal.length → ¬ sentinelSkip (palAt c6pal j) →
      sqDist c6err (palAt c6pal (getBestIndexNat c6err c6pal)) ≤ sqDist c6err (palAt c6pal j)) ∧
    (∀ j, j < getBestIndexNat c6err c6pal → ¬ sentinelSkip (palAt c6pal j) →
      sqDist c6err (palAt c6pal (getBestIndexNat c6err c6pal)) < sqDist c6err (palAt c6pal j)) ∧
    (∀ j, j < c6pal.length → ¬ sentinelSkip (palAt c6pal j) →
      sqDist c6err (palAt c6pal j) = 0 →
      getBestIndexNat c6err c6pal ≤ j ∧
        sqDist c6err (palAt c6pal (getBestIndexNat c6err c6pal)) = 0) ∧
    (c6pal.length ≤ 256 → getBestIndex c6err c6pal = getBestIndexNat c6err c6pal) :=
  C6_get_best_index c6err c6pal ⟨1, by decide, by decide⟩

end Gorender

namespace Gorender

/-- The math.MaxInt64 sentinel used to initialise minDepth (line 440). -/
def maxInt64 : ℤ := 2 ^ 63 - 1

/-- The first loop of shade (lines 441-445): minimum depth over collided
samples, starting from the MaxInt64 sentinel. -/
def shadeMinDepth (info : List Sample) : ℤ :=
  info.foldl (fun m s => if s.Collision ∧ s.Depth < m then s.Depth else m) maxInt64

/-- The effective influence of one sample after the recovered-voxel,
detail-boost and depth-accuracy scalings (lines 448-461). -/
def effectiveInfluence (defn : Definition) (minDepth : ℤ) (s : Sample) : ℚ :=
  let i1 := if s.IsRecovered then s.Influence * (1 - defn.Manifest.RecoveredVoxelSuppression)
            else s.Influence
  let i2 := if defn.Manifest.DetailBoost ≠ 0 then i1 * (1 + s.Detail * defn.Manifest.DetailBoost)
            else i1
  if s.Depth ≠ minDepth then i2 / defn.Manifest.Accuracy else i2

/-- Inserts a key into an ascending duplicate-free key list. -/
def insertKey (k : ℕ) : List ℕ → List ℕ
  | [] => [k]
  | a :: rest =>
    if k < a then k :: a :: rest
    else if k = a then a :: rest
    else a :: insertKey k rest

/-- The Go map values of shade: a total function with the Go zero default
on absent keys, together with the list of inserted keys. The Go source
iterates this hash map in unspecified order; this model iterates the keys
in ascending index order, which the spec expressly permits (the spec notes
the source's tie order is nondeterministic and recommends ascending
palette-index order for reimplementations). -/
structure ValuesMap where
  vals : ℕ → ℚ
  keys : List ℕ

/-- The empty map (the make result of line 436). -/
def ValuesMap.empty : ValuesMap := ⟨fun _ => 0, []⟩

/-- A += update: reads the current value (0 when absent), adds q, and
records the key. -/
def ValuesMap.add (m : ValuesMap) (k : ℕ) (q : ℚ) : ValuesMap :=
  ⟨Function.update m.vals k (m.vals k + q), insertKey k m.keys⟩

/-- The running accumulators of the main shade loop (lines 434-496).
values is the Go hash map with zero default on absent keys. -/
structure ShadeAcc where
  totalInfluence : ℚ
  filledInfluence : ℚ
  filledSamples : ℕ
  totalSamples : ℕ
  colour : RGB
  specialColour : RGB
  specialness : ℚ
  values : ValuesMap
  normal : RGB
  averagedNormal : RGB
  depth : RGB
  occlusion : RGB
  lighting : RGB
  shadowing : RGB
  detail : RGB

def shadeAcc0 : ShadeAcc :=
  ⟨0, 0, 0, 0, RGB.zero, RGB.zero, 0, ValuesMap.empty, RGB.zero, RGB.zero, RGB.zero,
   RGB.zero, RGB.zero, RGB.zero, RGB.zero⟩

/-- Adds b to a, n times (the Count-times debug accumulation loop of
lines 483-491). -/
def addNTimes (a b : RGB) : ℕ → RGB
  | 0 => a
  | n + 1 => addNTimes (a.Add b) b n

/-- One iteration of the main shade loop (lines 447-496). -/
def shadeStep (defn : Definition) (minDepth : ℤ) (acc : ShadeAcc) (s : Sample) : ShadeAcc :=
  let infl := effectiveInfluence defn minDepth s
  let acc1 := { acc with totalInfluence := acc.totalInfluence + infl }
  let acc2 :=
    if s.Collision ∧ defn.Palette.Renderable s.Index then
      let a1 := { acc1 with
        filledInfluence := acc1.filledInfluence + infl
        filledSamples := acc1.filledSamples + s.Count
        colour := acc1.colour.Add (Colour s defn true infl)
        specialColour := acc1.specialColour.Add (Colour s defn false infl) }
      let a2 :=
        if defn.Palette.Special s.Index then
          { a1 with specialness := a1.specialness + 1 * infl
                    values := a1.values.add s.Index 1 }
        else a1
      let a3 :=
        if s.Index ≠ 0 then
          { a2 with values := a2.values.add s.Index infl }
        else a2
      if defn.Debug then
        { a3 with normal := addNTimes a3.normal (Normal s) s.Count
                  averagedNormal := addNTimes a3.averagedNormal (AveragedNormal s) s.Count
                  depth := addNTimes a3.depth (Depth s) s.Count
                  occlusion := addNTimes a3.occlusion (Occlusion s) s.Count
                  shadowing := addNTimes a3.shadowing (Shadow s) s.Count
                  lighting := addNTimes a3.lighting (Lighting s) s.Count
                  detail := addNTimes a3.detail (Detail s) s.Count }
      else a3
    else acc1
  { acc2 with totalSamples := acc2.totalSamples + s.Count }

/-- The accumulator state after shade's main loop over the sample list. -/
def shadeAccOf (info : List Sample) (defn : Definition) : ShadeAcc :=
  info.foldl (shadeStep defn (shadeMinDepth info)) shadeAcc0

/-- The modal-selection loop of shade (lines 498-508), returning the winner
and the runner-up (the previous argmax, Go alternateModal): the map's keys
are visited in ascending order, and a key strictly exceeding the running
max replaces the modal, saving the previous modal as the alternate. -/
def selectModal (values : ValuesMap) : ℕ × ℕ :=
  let r := values.keys.foldl
    (fun (st : ℚ × ℕ × ℕ) k => if st.1 < values.vals k then (values.vals k, st.2.2, k) else st)
    ((0 : ℚ), (0 : ℕ), (0 : ℕ))
  (r.2.2, r.2.1)

/-- The anti-banding substitution of shade (lines 510-513), applied to the
winner and runner-up of the modal vote. -/
def shadeModal (defn : Definition) (prevIndex : ℕ) (values : ValuesMap) : ℕ :=
  let sel := selectModal values
  if sel.1 = prevIndex ∧ defn.Palette.rangeId sel.1 = defn.Palette.rangeId sel.2 ∧ sel.2 ≠ 0
  then sel.2 else sel.1

/-- The hard-edge discard condition of shade (line 516): totalSamples is
zero, or the integer-arithmetic filled ratio is at most int(HardEdgeThreshold * 100). -/
def discardP (defn : Definition) (acc : ShadeAcc) : Prop :=
  acc.totalSamples = 0 ∨
    ((acc.filledSamples * 100 / acc.totalSamples : ℕ) : ℤ) ≤
      ratTrunc (defn.Manifest.HardEdgeThreshold * 100)

instance (defn : Definition) (acc : ShadeAcc) : Decidable (discardP defn acc) := by
  unfold discardP
  infer_instance

/-- shade of shader.go lines 433-553. -/
def shade (info : List Sample) (defn : Definition) (prevIndex : ℕ) : ShaderInfo :=
  let acc := shadeAccOf info defn
  let modal := shadeModal defn prevIndex acc.values
  if discardP defn acc then zeroShaderInfo
  else
    let divisor0 := acc.filledInfluence
    let alpha := if defn.SoftenEdges then divisor0 / acc.totalInfluence else 1
    let divisor := if defn.Manifest.FadeToBlack then acc.totalInfluence else divisor0
    let debugDivisor := (acc.filledSamples : ℚ)
    { Colour := acc.colour.DivideAndClamp divisor
      SpecialColour := acc.specialColour.DivideAndClamp divisor
      Alpha := alpha
      Specialness := acc.specialness / divisor
      Normal := if defn.Debug then acc.normal.DivideAndClamp debugDivisor else acc.normal
      AveragedNormal :=
        if defn.Debug then acc.averagedNormal.DivideAndClamp debugDivisor else acc.averagedNormal
      Depth := if defn.Debug then acc.depth.DivideAndClamp debugDivisor else acc.depth
      Occlusion := if defn.Debug then acc.occlusion.DivideAndClamp debugDivisor else acc.occlusion
      Lighting := if defn.Debug then acc.lighting.DivideAndClamp debugDivisor else acc.lighting
      Shadowing := if defn.Debug then acc.shadowing.DivideAndClamp debugDivisor else acc.shadowing
      Detail := if defn.Debug then acc.detail.DivideAndClamp debugDivisor else acc.detail
      Transparency :=
        if defn.Debug then FloatValue ((acc.filledSamples : ℚ) / (acc.totalSamples : ℚ))
        else RGB.zero
      Region := 0
      ModalIndex := modal
      DitheredIndex := 0
      IsMaskColour := false
      IsAnimated := false }

end Gorender

namespace Gorender

/-- A renderable collided sample with the given index and influence, unit
count, minimal depth and no recovery or detail, for concrete C4 inputs. -/
def c4sample (i : ℕ) (infl : ℚ) : Sample :=
  ⟨true, i, 0, infl, 1, false, 0, RGB.zero, RGB.zero, RGB.zero, RGB.zero, RGB.zero,
   RGB.zero, RGB.zero, RGB.zero, RGB.zero⟩

/-- A palette whose entries 1 and 2 share the same range object. -/
def c4palette : Palette :=
  ⟨[⟨RGB.zero, none⟩, ⟨RGB.zero, some 0⟩, ⟨RGB.zero, some 0⟩],
   [⟨1, 2, false, false, false⟩],
   [], [], [],
   fun i => decide (i = 1 ∨ i = 2),
   fun _ => false⟩

/-- A definition over c4palette with the given hard-edge threshold. -/
def c4defn (het : ℚ) : Definition :=
  ⟨c4palette, 1, false, ⟨1, 1/2, het, 0, 0, false, false⟩⟩

/-- Claim C4 counterexample: with HardEdgeThreshold = 1 every pixel is
discarded, so although the weighted vote has winner 1 (and none of the
anti-banding conditions hold, prevIndex being 2), shade returns the zero
ShaderInfo with ModalIndex 0, not the winner: the claim's clause that in
every other case the winner of the weighted vote is returned fails. -/
theorem C4_counterexample :
    selectModal (shadeAccOf [c4sample 1 1] (c4defn 1)).values = (1, 0) ∧
    ¬ ((1 : ℕ) = 2 ∧ (c4defn 1).Palette.rangeId 1 = (c4defn 1).Palette.rangeId 0 ∧ (0 : ℕ) ≠ 0) ∧
    (shade [c4sample 1 1] (c4defn 1) 2).ModalIndex = 0 ∧ (1 : ℕ) ≠ 0 := by
  refine ⟨by decide, by decide, by decide, by decide⟩

/-- Claim C4 amended: provided the pixel survives the hard-edge discard
(which otherwise zeroes the whole ShaderInfo), shade's returned ModalIndex
is the runner-up alternateModal exactly when the winner equals prevIndex,
the winner's and runner-up's palette entries reference the identical range
object, and the runner-up is nonzero; in every other surviving case it is
the winner of the weighted vote. -/
theorem C4_anti_banding (info : List Sample) (defn : Definition) (prevIndex m a : ℕ)
    (hsel : selectModal (shadeAccOf info defn).values = (m, a))
    (hnd : ¬ discardP defn (shadeAccOf info defn)) :
    (shade info defn prevIndex).ModalIndex =
      if m = prevIndex ∧ defn.Palette.rangeId m = defn.Palette.rangeId a ∧ a ≠ 0
      then a else m := by
  unfold shade
  rw [if_neg hnd]
  show shadeModal defn prevIndex (shadeAccOf info defn).values = _
  unfold shadeModal
  rw [hsel]

/-- Witness for the amended C4 at a concrete two-sample pixel: the vote is
won by index 2 with runner-up 1, prevIndex is 2 and entries 1 and 2 share a
range, so the anti-banding substitution yields ModalIndex 1. -/
theorem C4_anti_banding_witness :
    (shade [c4sample 1 (2/5), c4sample 2 (3/5)] (c4defn 0) 2).ModalIndex =
      (if (2 : ℕ) = 2 ∧ (c4defn 0).Palette.rangeId 2 = (c4defn 0).Palette.rangeId 1 ∧ (1 : ℕ) ≠ 0
       then 1 else 2) :=
  C4_anti_banding [c4sample 1 (2/5), c4sample 2 (3/5)] (c4defn 0) 2 2 1 (by decide) (by decide)

end Gorender

namespace Gorender

/-- The rolling Floyd-Steinberg error rows (length height + 2 in the
source; modelled as total functions, every access in the source being in
bounds). -/
def Rows : Type := ℕ → RGB

def zeroRows : Rows := fun _ => RGB.zero

/-- The branch part of ditherOutput (lines 320-353): selects the target
colour fed to the matcher (Go reassigns the error parameter to it), the
best index, and whether the animated branch fired. err0 is the by-value
error parameter, left untouched in the below-threshold branch. -/
def ditherChoice (defn : Definition) (g : Grid) (x y : ℕ) (errCurr : Rows) (err0 : RGB) :
    RGB × ℕ × Bool :=
  let info := g x y
  let rng := defn.Palette.rangeData (defn.Palette.rangeId info.ModalIndex)
  if info.Alpha < defn.Manifest.EdgeThreshold then (err0, 0, false)
  else if rng.IsPrimaryCompanyColour then
    let e := if 0 < y ∧ defn.Palette.Special ((g x (y - 1)).ModalIndex) then info.SpecialColour
             else info.SpecialColour.Add (errCurr (y + 1))
    (e, getBestIndex e defn.Palette.PrimaryCC, false)
  else if rng.IsSecondaryCompanyColour then
    let e := if 0 < y ∧ defn.Palette.Special ((g x (y - 1)).ModalIndex) then info.SpecialColour
             else info.SpecialColour.Add (errCurr (y + 1))
    (e, getBestIndex e defn.Palette.SecondaryCC, false)
  else if rng.IsAnimatedLight then
    ((defn.Palette.entry info.ModalIndex).GetRGB, info.ModalIndex, true)
  else
    let e := if 0 < y ∧ defn.Palette.Special ((g x (y - 1)).ModalIndex) then info.Colour
             else info.Colour.Add (errCurr (y + 1))
    (e, getBestIndex e defn.Palette.Regular, false)

/-- The diffused quantisation error of ditherOutput (lines 361-365): the
clamped difference between the matcher target and the chosen palette
colour when Alpha reaches the edge threshold, the zero colour otherwise. -/
def ditherError (defn : Definition) (g : Grid) (x y : ℕ) (errCurr : Rows) (err0 : RGB) : RGB :=
  let c := ditherChoice defn g x y errCurr err0
  if defn.Manifest.EdgeThreshold ≤ (g x y).Alpha then
    ClampRGB (c.1.Subtract ((defn.Palette.entry c.2.1).GetRGB))
  else RGB.zero

/-- ditherOutput of shader.go lines 317-375: writes DitheredIndex (and
possibly IsAnimated, IsMaskColour) into the grid, diffuses the error into
the two rolling rows, zeroes the consumed errCurr cell, and returns the
chosen index. -/
def ditherOutput (defn : Definition) (g : Grid) (x y : ℕ) (err0 : RGB)
    (errCurr errNext : Rows) : Grid × Rows × Rows × ℕ :=
  let c := ditherChoice defn g x y errCurr err0
  let bestIndex := c.2.1
  let info0 := g x y
  let info1 := if c.2.2 then { info0 with IsAnimated := true } else info0
  let info2 := { info1 with DitheredIndex := bestIndex }
  let info3 := if defn.Palette.Special bestIndex then { info2 with IsMaskColour := true }
               else info2
  let g1 := setPix g x y info3
  let e := ditherError defn g x y errCurr err0
  let n1 := Function.update errNext y ((errNext y).Add (e.MultiplyBy (3/16)))
  let n2 := Function.update n1 (y + 1) ((n1 (y + 1)).Add (e.MultiplyBy (5/16)))
  let n3 := Function.update n2 (y + 2) ((n2 (y + 2)).Add (e.MultiplyBy (1/16)))
  let c1 := Function.update errCurr (y + 2) ((errCurr (y + 2)).Add (e.MultiplyBy (7/16)))
  let c2 := Function.update c1 (y + 1) RGB.zero
  (g1, c2, n3, bestIndex)

end Gorender

namespace Gorender

/-- Claim C7: the ditherer diffuses the quantisation error e (the clamped
difference between the branch target and the chosen palette colour when
Alpha is at least EdgeThreshold, the zero colour otherwise) exactly as
errNext[y] += 3/16 e, errNext[y+1] += 5/16 e, errNext[y+2] += 1/16 e,
errCurr[y+2] += 7/16 e, then zeroes errCurr[y+1]; all other row cells are
untouched; and a pixel below the edge threshold emits index 0 with zero
error, while the written DitheredIndex is the returned index. -/
theorem C7_error_diffusion (defn : Definition) (g : Grid) (x y : ℕ) (err0 : RGB)
    (errCurr errNext : Rows) (d : Grid × Rows × Rows × ℕ) (e : RGB)
    (hd : d = ditherOutput defn g x y err0 errCurr errNext)
    (he : e = ditherError defn g x y errCurr err0) :
    d.2.2.1 y = (errNext y).Add (e.MultiplyBy (3/16)) ∧
    d.2.2.1 (y + 1) = (errNext (y + 1)).Add (e.MultiplyBy (5/16)) ∧
    d.2.2.1 (y + 2) = (errNext (y + 2)).Add (e.MultiplyBy (1/16)) ∧
    d.2.1 (y + 2) = (errCurr (y + 2)).Add (e.MultiplyBy (7/16)) ∧
    d.2.1 (y + 1) = RGB.zero ∧
    (∀ i, i ≠ y → i ≠ y + 1 → i ≠ y + 2 → d.2.2.1 i = errNext i) ∧
    (∀ i, i ≠ y + 1 → i ≠ y + 2 → d.2.1 i = errCurr i) ∧
    (e = if defn.Manifest.EdgeThreshold ≤ (g x y).Alpha
         then ClampRGB (((ditherChoice defn g x y errCurr err0).1).Subtract
             ((defn.Palette.entry d.2.2.2).GetRGB))
         else RGB.zero) ∧
    ((g x y).Alpha < defn.Manifest.EdgeThreshold → d.2.2.2 = 0 ∧ e = RGB.zero) ∧
    (d.1 x y).DitheredIndex = d.2.2.2 := by
  subst hd he
  refine ⟨?_, ?_, ?_, ?_, ?_, ?_, ?_, ?_, ?_, ?_⟩
  · show Function.update (Function.update (Function.update errNext y _) (y + 1) _) (y + 2) _ y = _
    rw [Function.update_noteq (by omega), Function.update_noteq (by omega),
      Function.update_same]
  · show Function.update (Function.update (Function.update errNext y _) (y + 1) _) (y + 2) _
        (y + 1) = _
    rw [Function.update_noteq (by omega), Function.update_same,
      Function.update_noteq (by omega)]
  · show Function.update (Function.update (Function.update errNext y _) (y + 1) _) (y + 2) _
        (y + 2) = _
    rw [Function.update_same, Function.update_noteq (by omega),
      Function.update_noteq (by omega)]
  · show Function.update (Function.update errCurr (y + 2) _) (y + 1) RGB.zero (y + 2) = _
    rw [Function.update_noteq (by omega), Function.update_same]
  · show Function.update (Function.update errCurr (y + 2) _) (y + 1) RGB.zero (y + 1) = _
    rw [Function.update_same]
  · intro i h1 h2 h3
    show Function.update (Function.update (Function.update errNext y _) (y + 1) _) (y + 2) _ i = _
    rw [Function.update_noteq h3, Function.update_noteq h2, Function.update_noteq h1]
  · intro i h2 h3
    show Function.update (Function.update errCurr (y + 2) _) (y + 1) RGB.zero i = _
    rw [Function.update_noteq h2, Function.update_noteq h3]
  · rfl
  · intro halpha
    constructor
    · show (ditherChoice defn g x y errCurr err0).2.1 = 0
      unfold ditherChoice
      rw [if_pos halpha]
    · show ditherError defn g x y errCurr err0 = RGB.zero
      unfold ditherError
      rw [if_neg (not_le_of_lt halpha)]
  · show (setPix g x y _ x y).DitheredIndex = _
    unfold setPix
    rw [Function.update_same, Function.update_same]
    split
    · rfl
    · rfl

/-- A trivial definition for the C7 witness: every manifest field zero,
empty palette. -/
def c7defn : Definition :=
  ⟨⟨[], [], [], [], [], fun _ => false, fun _ => false⟩, 1, false,
   ⟨1, 1/2, 0, 0, 0, false, false⟩⟩

/-- Witness for C7 at concrete arguments: the zero grid pixel has
Alpha 0 below EdgeThreshold 1/2, so the index is 0 and the error zero. -/
theorem C7_error_diffusion_witness :
    ((ditherOutput c7defn zeroGrid 0 0 RGB.zero zeroRows zeroRows).2.2.1 0 =
      (zeroRows 0).Add ((ditherError c7defn zeroGrid 0 0 zeroRows RGB.zero).MultiplyBy (3/16))) ∧
    ((zeroGrid 0 0).Alpha < c7defn.Manifest.EdgeThreshold →
      (ditherOutput c7defn zeroGrid 0 0 RGB.zero zeroRows zeroRows).2.2.2 = 0 ∧
        ditherError c7defn zeroGrid 0 0 zeroRows RGB.zero = RGB.zero) := by
  have h := C7_error_diffusion c7defn zeroGrid 0 0 RGB.zero zeroRows zeroRows
    (ditherOutput c7defn zeroGrid 0 0 RGB.zero zeroRows zeroRows)
    (ditherError c7defn zeroGrid 0 0 zeroRows RGB.zero) rfl rfl
  exact ⟨h.1, h.2.2.2.2.2.2.2.2.1⟩

end Gorender

namespace Gorender

/-- floodFill of shader.go lines 377-407, made structurally terminating by
fuel (the Go recursion is unbounded); the Bool result of the Go function is
ignored by every caller and dropped here. Theorem C9_flood_fill_terminates
shows the result is the same for every fuel beyond the number of fillable
cells, which is the termination of the Go recursion. -/
def floodFillFuel (pal : Palette) (region : ℤ) (w h : ℕ) (pr : Option ℕ) :
    ℕ → ℕ → ℕ → Grid → Grid
  | 0, _, _, g => g
  | fuel + 1, x, y, g =>
    let index := (g x y).ModalIndex
    let thisRegion := (g x y).Region
    let thisRange := pal.rangeId index
    if thisRange ≠ pr ∨ thisRegion = region then g
    else
      let g0 := setPix g x y { g x y with Region := region }
      let g1 := if 0 < x then floodFillFuel pal region w h pr fuel (x - 1) y g0 else g0
      let g2 := if 0 < y then floodFillFuel pal region w h pr fuel x (y - 1) g1 else g1
      let g3 := if x < w - 1 then floodFillFuel pal region w h pr fuel (x + 1) y g2 else g2
      let g4 := if y < h - 1 then floodFillFuel pal region w h pr fuel x (y + 1) g3 else g3
      g4

/-- The fuel GetShaderOutput hands to each flood fill: more than the cell
count of the grid, which always suffices (theorem C9_flood_fill_terminates). -/
def floodFill (pal : Palette) (region : ℤ) (w h : ℕ) (pr : Option ℕ) (x y : ℕ) (g : Grid) :
    Grid :=
  floodFillFuel pal region w h pr (w * h + 1) x y g

/-- The region-discovery loop of GetShaderOutput (lines 156-184): scans the
grid in row-major order, seeds a fresh region id at each unassigned pixel
with nonzero ModalIndex, flood fills it, and records a RegionInfo with the
seed range and an empty modal-count map. -/
def regionPass (defn : Definition) (w h : ℕ) (g0 : Grid) : Grid × Regions × ℤ :=
  (List.range w).foldl (fun st x =>
    (List.range h).foldl (fun (st : Grid × Regions × ℤ) y =>
      if (st.1 x y).ModalIndex = 0 then st
      else if (st.1 x y).Region ≠ 0 then st
      else
        let pr := defn.Palette.rangeId ((st.1 x y).ModalIndex)
        let info := { zeroRegionInfo with Range := pr }
        (floodFill defn.Palette st.2.2 w h pr x y st.1,
         writeRegion st.2.1 st.2.2 info, st.2.2 + 1)) st) (g0, fun _ => none, 1)

/-- The state threaded through dithering pass 1: the grid, the regions map
being updated with statistics, and the two rolling error rows. -/
structure Pass1State where
  grid : Grid
  regs : Regions
  errCurr : Rows
  errNext : Rows

/-- One pixel of dithering pass 1 (lines 197-235): dither, then update the
region statistics; the updated RegionInfo is only written back to the map
when the dithered range matches the region range and the index is nonzero
(the Go write-back at line 233 sits inside that conditional, so the Size
increment is lost otherwise). -/
def pass1Cell (defn : Definition) (x y : ℕ) (st : Pass1State) : Pass1State :=
  let d := ditherOutput defn st.grid x y RGB.zero st.errCurr st.errNext
  let g := d.1
  let bestIndex := d.2.2.2
  let ditheredRange := defn.Palette.rangeId bestIndex
  let key := (g x y).Region
  let info0 := readRegion st.regs key
  let info1 := { info0 with Size := info0.Size + 1 }
  if ditheredRange = info1.Range ∧ bestIndex ≠ 0 then
    let sizeIR : ℕ := info1.SizeInRange + 1
    let col := if defn.Palette.Special ((g x y).ModalIndex) then (g x y).SpecialColour
               else (g x y).Colour
    let avg : RGB :=
      ⟨(info1.AverageColour.R * ((sizeIR : ℚ) - 1) + col.R) / (sizeIR : ℚ),
       (info1.AverageColour.G * ((sizeIR : ℚ) - 1) + col.G) / (sizeIR : ℚ),
       (info1.AverageColour.B * ((sizeIR : ℚ) - 1) + col.B) / (sizeIR : ℚ)⟩
    let info2 := { info1 with SizeInRange := sizeIR, AverageColour := avg }
    let info3 := if bestIndex < info2.MinIndex ∨ info2.MinIndex = 0 then
        { info2 with MinIndex := bestIndex } else info2
    let info4 := if bestIndex > info3.MaxIndex ∨ info3.MaxIndex = 0 then
        { info3 with MaxIndex := bestIndex } else info3
    let info5 := { info4 with
      ModalCount := Function.update info4.ModalCount bestIndex (info4.ModalCount bestIndex + 1) }
    { grid := g, regs := writeRegion st.regs key info5, errCurr := d.2.1, errNext := d.2.2.1 }
  else
    { grid := g, regs := st.regs, errCurr := d.2.1, errNext := d.2.2.1 }

/-- Dithering pass 1 (lines 194-239): column-major over the grid, swapping
the error rows after each column. -/
def ditherPass1 (defn : Definition) (w h : ℕ) (st0 : Pass1State) : Pass1State :=
  (List.range w).foldl (fun st x =>
    let st1 := (List.range h).foldl (fun st y => pass1Cell defn x y st) st
    { st1 with errCurr := st1.errNext, errNext := st1.errCurr }) st0

/-- The distance computation for one region (lines 250-279). The Go code
dereferences region.Range here (a nil Range with Size above 1 would panic);
the model reads the empty default range instead, a case no claim in scope
evaluates. -/
def computeDistance (defn : Definition) (r : RegionInfo) : ColourDistance :=
  let rng := defn.Palette.rangeData r.Range
  let minColour := (defn.Palette.entry r.MinIndex).GetRGB
  let maxColour := (defn.Palette.entry r.MaxIndex).GetRGB
  let lowIndex := if rng.Start < r.MinIndex then
      (if r.MinIndex - rng.Start > 3 then r.MinIndex - 3 else rng.Start) else r.MinIndex
  let highIndex := if rng.End > r.MaxIndex then
      (if rng.End - r.MaxIndex > 3 then r.MaxIndex + 3 else rng.End) else r.MaxIndex
  let lowColour := (defn.Palette.entry lowIndex).GetRGB
  let highColour := (defn.Palette.entry highIndex).GetRGB
  ⟨((r.AverageColour.R - lowColour.R) / (r.AverageColour.R - minColour.R) +
    (r.AverageColour.G - lowColour.G) / (r.AverageColour.G - minColour.G) +
    (r.AverageColour.B - lowColour.B) / (r.AverageColour.B - minColour.B)) / 3,
   ((r.AverageColour.R - highColour.R) / (r.AverageColour.R - maxColour.R) +
    (r.AverageColour.G - highColour.G) / (r.AverageColour.G - maxColour.G) +
    (r.AverageColour.B - highColour.B) / (r.AverageColour.B - maxColour.B)) / 3⟩

/-- The distance loop of GetShaderOutput (lines 241-287): each region of
Size above 1 gets its Distance; the Go loop iterates the map in unspecified
order but updates each entry independently, so it is modelled pointwise
(the diagnostic log statements carry no state). -/
def distancePass (defn : Definition) (rs : Regions) : Regions :=
  fun k => (rs k).map (fun r => if r.Size > 1 then { r with Distance := computeDistance defn r }
                                else r)

/-- The state threaded through dithering pass 2. -/
structure Pass2State where
  grid : Grid
  errCurr : Rows
  errNext : Rows

/-- The per-pixel colour rewrite of pass 2 (lines 294-305): for pixels of
regions with Size above 1, pull the pre-dither colour (SpecialColour when
the modal index is special, Colour otherwise) through MultiplyColours. -/
def stretchAt (defn : Definition) (rs : Regions) (x y : ℕ) (g : Grid) : Grid :=
  let info := readRegion rs ((g x y).Region)
  if info.Size > 1 then
    (if defn.Palette.Special ((g x y).ModalIndex) then
      setPix g x y { g x y with
        SpecialColour := MultiplyColours info.Distance info.AverageColour
          ((g x y).SpecialColour) }
    else
      setPix g x y { g x y with
        Colour := MultiplyColours info.Distance info.AverageColour ((g x y).Colour) })
  else g

/-- One pixel of dithering pass 2 (lines 293-308): stretch the colour, then
dither again. -/
def pass2Cell (defn : Definition) (rs : Regions) (x y : ℕ) (st : Pass2State) : Pass2State :=
  let d := ditherOutput defn (stretchAt defn rs x y st.grid) x y RGB.zero st.errCurr st.errNext
  { grid := d.1, errCurr := d.2.1, errNext := d.2.2.1 }

/-- Dithering pass 2 (lines 292-312): column-major, swapping the error rows
after each column; the rows are not re-zeroed between the passes. -/
def ditherPass2 (defn : Definition) (rs : Regions) (w h : ℕ) (st0 : Pass2State) : Pass2State :=
  (List.range w).foldl (fun st x =>
    let st1 := (List.range h).foldl (fun st y => pass2Cell defn rs x y st) st
    { st1 with errCurr := st1.errNext, errNext := st1.errCurr }) st0

/-- The shading loop of GetShaderOutput (lines 122-154): shades every pixel
whose offset render coordinates are in bounds, passing the modal index of
the left neighbour when x is above 1, and leaves the rest zeroed. -/
def shadePass (ro : RenderOutput) (spr : Sprite) (defn : Definition) (w h : ℕ) : Grid :=
  let xoffset := ratTrunc (spr.OffsetX * defn.Scale)
  let yoffset := ratTrunc (spr.OffsetY * defn.Scale)
  (List.range w).foldl (fun g (x : ℕ) =>
    (List.range h).foldl (fun (g : Grid) (y : ℕ) =>
      let rx := (x : ℤ) + xoffset
      let ry := (y : ℤ) + yoffset
      if rx < 0 ∨ (w : ℤ) ≤ rx ∨ ry < 0 ∨ (h : ℤ) ≤ ry then g
      else
        let prevIndex := if x > 1 then (g (x - 1) y).ModalIndex else 0
        setPix g x y (shade (ro rx.toNat ry.toNat) defn prevIndex)) g) zeroGrid

/-- GetShaderOutput of shader.go lines 122-315: shade, discover regions,
dither pass 1 gathering region statistics, compute region distances,
stretch and dither pass 2. -/
def GetShaderOutput (ro : RenderOutput) (spr : Sprite) (defn : Definition) (w h : ℕ) : Grid :=
  let g0 := shadePass ro spr defn w h
  let rp := regionPass defn w h g0
  let p1 := ditherPass1 defn w h ⟨rp.1, rp.2.1, zeroRows, zeroRows⟩
  let rs := distancePass defn p1.regs
  let p2 := ditherPass2 defn rs w h ⟨p1.grid, p1.errCurr, p1.errNext⟩
  p2.grid

end Gorender

namespace Gorender

theorem setPix_self (g : Grid) (x y : ℕ) (v : ShaderInfo) : setPix g x y v x y = v := by
  unfold setPix
  rw [Function.update_same, Function.update_same]

theorem setPix_other (g : Grid) (x y : ℕ) (v : ShaderInfo) (p q : ℕ)
    (h : p ≠ x ∨ q ≠ y) : setPix g x y v p q = g p q := by
  unfold setPix
  rcases h with h | h
  · rw [Function.update_noteq h]
  · rcases eq_or_ne p x with rfl | hp
    · rw [Function.update_same, Function.update_noteq h]
    · rw [Function.update_noteq hp]

/-- Invariance of a predicate under a left fold. -/
theorem foldlInv {α β : Type} (P : α → Prop) (f : α → β → α)
    (h : ∀ a b, P a → P (f a b)) : ∀ (l : List β) (a : α), P a → P (l.foldl f a) := by
  intro l
  induction l with
  | nil => intro a ha; exact ha
  | cons b rest ih => intro a ha; exact ih (f a b) (h a b ha)

theorem ditherOutput_grid_other (defn : Definition) (g : Grid) (x y : ℕ) (err0 : RGB)
    (errCurr errNext : Rows) (p q : ℕ) (h : p ≠ x ∨ q ≠ y) :
    (ditherOutput defn g x y err0 errCurr errNext).1 p q = g p q := by
  show setPix g x y _ p q = g p q
  exact setPix_other g x y _ p q h

theorem ditherOutput_grid_self (defn : Definition) (g : Grid) (x y : ℕ) (err0 : RGB)
    (errCurr errNext : Rows) :
    (ditherOutput defn g x y err0 errCurr errNext).1 x y =
      { g x y with
        DitheredIndex := (ditherOutput defn g x y err0 errCurr errNext).2.2.2,
        IsAnimated :=
          ((g x y).IsAnimated || (ditherChoice defn g x y errCurr err0).2.2),
        IsMaskColour :=
          ((g x y).IsMaskColour ||
            defn.Palette.Special ((ditherOutput defn g x y err0 errCurr errNext).2.2.2)) } := by
  show setPix g x y _ x y = _
  rw [setPix_self]
  have hb : (ditherOutput defn g x y err0 errCurr errNext).2.2.2 =
      (ditherChoice defn g x y errCurr err0).2.1 := rfl
  cases hgxy : g x y
  by_cases hanim : (ditherChoice defn g x y errCurr err0).2.2
  · by_cases hsp : defn.Palette.Special ((ditherChoice defn g x y errCurr err0).2.1)
    · simp [hgxy, hanim, hsp, hb]
    · simp [hgxy, hanim, hsp, hb]
  · by_cases hsp : defn.Palette.Special ((ditherChoice defn g x y errCurr err0).2.1)
    · simp [hgxy, hanim, hsp, hb]
    · simp [hgxy, hanim, hsp, hb]

end Gorender

namespace Gorender

/-- Relation between grids: the second differs from the first at most by
setting Region fields to r (what one flood fill with id r can do). -/
def regionOnly (r : ℤ) (g g2 : Grid) : Prop :=
  ∀ p q, g2 p q = g p q ∨ g2 p q = { g p q with Region := r }

theorem withRegion_idem (b : ShaderInfo) (r : ℤ) :
    ({ ({ b with Region := r }) with Region := r } : ShaderInfo) = { b with Region := r } := by
  cases b
  rfl

theorem regionOnly_refl (r : ℤ) (g : Grid) : regionOnly r g g := fun _p _q => Or.inl rfl

theorem regionOnly_trans {r : ℤ} {g1 g2 g3 : Grid}
    (h12 : regionOnly r g1 g2) (h23 : regionOnly r g2 g3) : regionOnly r g1 g3 := by
  intro p q
  rcases h23 p q with h | h
  · rw [h]
    exact h12 p q
  · rcases h12 p q with h2 | h2
    · rw [h, h2]
      exact Or.inr rfl
    · rw [h, h2]
      exact Or.inr (withRegion_idem _ r)

theorem regionOnly_setPix (r : ℤ) (g : Grid) (x y : ℕ) :
    regionOnly r g (setPix g x y { g x y with Region := r }) := by
  intro p q
  by_cases hp : p = x
  · by_cases hq : q = y
    · subst hp hq
      rw [setPix_self]
      exact Or.inr rfl
    · rw [setPix_other g x y _ p q (Or.inr hq)]
      exact Or.inl rfl
  · rw [setPix_other g x y _ p q (Or.inl hp)]
    exact Or.inl rfl

theorem floodFillFuel_regionOnly (pal : Palette) (r : ℤ) (w h : ℕ) (pr : Option ℕ) :
    ∀ (fuel x y : ℕ) (g : Grid), regionOnly r g (floodFillFuel pal r w h pr fuel x y g) := by
  intro fuel
  induction fuel with
  | zero => intro x y g; exact regionOnly_refl r g
  | succ f ih =>
    intro x y g
    simp only [floodFillFuel]
    by_cases hguard : pal.rangeId ((g x y).ModalIndex) ≠ pr ∨ (g x y).Region = r
    · rw [if_pos hguard]
      exact regionOnly_refl r g
    · rw [if_neg hguard]
      have step : ∀ (x2 y2 : ℕ) (cond : Prop) [Decidable cond] (g2 : Grid),
          regionOnly r g g2 →
          regionOnly r g (if cond then floodFillFuel pal r w h pr f x2 y2 g2 else g2) := by
        intro x2 y2 cond inst g2 hg2
        by_cases hc : cond
        · rw [if_pos hc]
          exact regionOnly_trans hg2 (ih x2 y2 g2)
        · rw [if_neg hc]
          exact hg2
      exact step _ _ _ _ (step _ _ _ _ (step _ _ _ _ (step _ _ _ _
        (regionOnly_setPix r g x y))))

/-- Everything but the Region field is invariant under regionOnly. -/
theorem regionOnly_fields {r : ℤ} {g g2 : Grid} (h : regionOnly r g g2) (p q : ℕ) :
    (g2 p q).Alpha = (g p q).Alpha ∧ (g2 p q).ModalIndex = (g p q).ModalIndex ∧
    (g2 p q).Colour = (g p q).Colour ∧ (g2 p q).SpecialColour = (g p q).SpecialColour ∧
    (g2 p q).Specialness = (g p q).Specialness ∧
    (g2 p q).DitheredIndex = (g p q).DitheredIndex ∧
    (g2 p q).IsMaskColour = (g p q).IsMaskColour ∧
    (g2 p q).IsAnimated = (g p q).IsAnimated := by
  rcases h p q with h2 | h2 <;> rw [h2] <;> exact ⟨rfl, rfl, rfl, rfl, rfl, rfl, rfl, rfl⟩

/-- The number of cells a flood fill with range pr and id r can still mark. -/
def fillableCount (pal : Palette) (pr : Option ℕ) (r : ℤ) (w h : ℕ) (g : Grid) : ℕ :=
  (((Finset.range w) ×ˢ (Finset.range h)).filter
    (fun p => pal.rangeId ((g p.1 p.2).ModalIndex) = pr ∧ (g p.1 p.2).Region ≠ r)).card

theorem regionOnly_fillable_le {pal : Palette} {pr : Option ℕ} {r : ℤ} {w h : ℕ}
    {g g2 : Grid} (hro : regionOnly r g g2) :
    fillableCount pal pr r w h g2 ≤ fillableCount pal pr r w h g := by
  apply Finset.card_le_card
  intro p hp
  rw [Finset.mem_filter] at hp ⊢
  refine ⟨hp.1, ?_⟩
  rcases hro p.1 p.2 with h2 | h2
  · rw [h2] at hp
    exact hp.2
  · exfalso
    have := hp.2.2
    rw [h2] at this
    exact this rfl

theorem floodFillFuel_fillable_le (pal : Palette) (r : ℤ) (w h : ℕ) (pr : Option ℕ)
    (fuel x y : ℕ) (g : Grid) :
    fillableCount pal pr r w h (floodFillFuel pal r w h pr fuel x y g) ≤
      fillableCount pal pr r w h g :=
  regionOnly_fillable_le (floodFillFuel_regionOnly pal r w h pr fuel x y g)

/-- Marking a fillable in-bounds cell strictly decreases the measure. -/
theorem fillable_mark_lt (pal : Palette) (pr : Option ℕ) (r : ℤ) (w h : ℕ) (g : Grid)
    (x y : ℕ) (hx : x < w) (hy : y < h)
    (hrange : pal.rangeId ((g x y).ModalIndex) = pr) (hreg : (g x y).Region ≠ r) :
    fillableCount pal pr r w h (setPix g x y { g x y with Region := r }) <
      fillableCount pal pr r w h g := by
  apply Finset.card_lt_card
  constructor
  · intro p hp
    rw [Finset.mem_filter] at hp ⊢
    refine ⟨hp.1, ?_⟩
    by_cases hpx : p.1 = x
    · by_cases hpy : p.2 = y
      · exfalso
        have heq : setPix g x y { g x y with Region := r } p.1 p.2 =
            { g x y with Region := r } := by
          rw [hpx, hpy, setPix_self]
        rw [heq] at hp
        exact hp.2.2 rfl
      · have heq := setPix_other g x y ({ g x y with Region := r }) p.1 p.2 (Or.inr hpy)
        rw [heq] at hp
        exact hp.2
    · have heq := setPix_other g x y ({ g x y with Region := r }) p.1 p.2 (Or.inl hpx)
      rw [heq] at hp
      exact hp.2
  · intro hsub
    have hmem : (⟨x, y⟩ : ℕ × ℕ) ∈ ((Finset.range w) ×ˢ (Finset.range h)).filter
        (fun p => pal.rangeId ((g p.1 p.2).ModalIndex) = pr ∧ (g p.1 p.2).Region ≠ r) := by
      rw [Finset.mem_filter, Finset.mem_product, Finset.mem_range, Finset.mem_range]
      exact ⟨⟨hx, hy⟩, hrange, hreg⟩
    have hmem2 := hsub hmem
    rw [Finset.mem_filter] at hmem2
    have heq : setPix g x y ({ g x y with Region := r }) x y = { g x y with Region := r } :=
      setPix_self g x y _
    rw [heq] at hmem2
    exact hmem2.2.2 rfl

end Gorender

namespace Gorender

/-- Fuel irrelevance of the flood fill: any two fuels exceeding the number
of fillable cells produce the same grid. -/
theorem floodFillFuel_irrel (pal : Palette) (r : ℤ) (w h : ℕ) (pr : Option ℕ) :
    ∀ (n : ℕ) (g : Grid) (x y f1 f2 : ℕ),
      fillableCount pal pr r w h g = n → x < w → y < h → n < f1 → n < f2 →
      floodFillFuel pal r w h pr f1 x y g = floodFillFuel pal r w h pr f2 x y g := by
  intro n
  induction n using Nat.strong_induction_on with
  | _ n ih =>
    intro g x y f1 f2 hn hx hy hf1 hf2
    obtain ⟨a, rfl⟩ : ∃ a, f1 = a + 1 := ⟨f1 - 1, by omega⟩
    obtain ⟨b, rfl⟩ : ∃ b, f2 = b + 1 := ⟨f2 - 1, by omega⟩
    simp only [floodFillFuel]
    by_cases hguard : pal.rangeId ((g x y).ModalIndex) ≠ pr ∨ (g x y).Region = r
    · rw [if_pos hguard, if_pos hguard]
    · rw [if_neg hguard, if_neg hguard]
      push_neg at hguard
      obtain ⟨hrange, hreg⟩ := hguard
      have hrange2 : pal.rangeId ((g x y).ModalIndex) = pr := hrange
      have hlt0 : fillableCount pal pr r w h (setPix g x y { g x y with Region := r }) < n := by
        rw [← hn]
        exact fillable_mark_lt pal pr r w h g x y hx hy hrange2 hreg
      set g0 := setPix g x y { g x y with Region := r } with hg0
      have h1 : (if 0 < x then floodFillFuel pal r w h pr a (x - 1) y g0 else g0)
              = (if 0 < x then floodFillFuel pal r w h pr b (x - 1) y g0 else g0) := by
        by_cases hc : 0 < x
        · rw [if_pos hc, if_pos hc]
          exact ih _ hlt0 g0 (x - 1) y a b rfl (by omega) hy (by omega) (by omega)
        · rw [if_neg hc, if_neg hc]
      rw [h1]
      have hle1 : fillableCount pal pr r w h
          (if 0 < x then floodFillFuel pal r w h pr b (x - 1) y g0 else g0) ≤
          fillableCount pal pr r w h g0 := by
        by_cases hc : 0 < x
        · rw [if_pos hc]
          exact floodFillFuel_fillable_le pal r w h pr b (x - 1) y g0
        · rw [if_neg hc]
      set G1 := (if 0 < x then floodFillFuel pal r w h pr b (x - 1) y g0 else g0) with hG1
      have hlt1 : fillableCount pal pr r w h G1 < n := lt_of_le_of_lt hle1 hlt0
      have h2 : (if 0 < y then floodFillFuel pal r w h pr a x (y - 1) G1 else G1)
              = (if 0 < y then floodFillFuel pal r w h pr b x (y - 1) G1 else G1) := by
        by_cases hc : 0 < y
        · rw [if_pos hc, if_pos hc]
          exact ih _ hlt1 G1 x (y - 1) a b rfl hx (by omega) (by omega) (by omega)
        · rw [if_neg hc, if_neg hc]
      rw [h2]
      have hle2 : fillableCount pal pr r w h
          (if 0 < y then floodFillFuel pal r w h pr b x (y - 1) G1 else G1) ≤
          fillableCount pal pr r w h G1 := by
        by_cases hc : 0 < y
        · rw [if_pos hc]
          exact floodFillFuel_fillable_le pal r w h pr b x (y - 1) G1
        · rw [if_neg hc]
      set G2 := (if 0 < y then floodFillFuel pal r w h pr b x (y - 1) G1 else G1) with hG2
      have hlt2 : fillableCount pal pr r w h G2 < n := lt_of_le_of_lt hle2 hlt1
      have h3 : (if x < w - 1 then floodFillFuel pal r w h pr a (x + 1) y G2 else G2)
              = (if x < w - 1 then floodFillFuel pal r w h pr b (x + 1) y G2 else G2) := by
        by_cases hc : x < w - 1
        · rw [if_pos hc, if_pos hc]
          exact ih _ hlt2 G2 (x + 1) y a b rfl (by omega) hy (by omega) (by omega)
        · rw [if_neg hc, if_neg hc]
      rw [h3]
      have hle3 : fillableCount pal pr r w h
          (if x < w - 1 then floodFillFuel pal r w h pr b (x + 1) y G2 else G2) ≤
          fillableCount pal pr r w h G2 := by
        by_cases hc : x < w - 1
        · rw [if_pos hc]
          exact floodFillFuel_fillable_le pal r w h pr b (x + 1) y G2
        · rw [if_neg hc]
      set G3 := (if x < w - 1 then floodFillFuel pal r w h pr b (x + 1) y G2 else G2) with hG3
      have hlt3 : fillableCount pal pr r w h G3 < n := lt_of_le_of_lt hle3 hlt2
      have h4 : (if y < h - 1 then floodFillFuel pal r w h pr a x (y + 1) G3 else G3)
              = (if y < h - 1 then floodFillFuel pal r w h pr b x (y + 1) G3 else G3) := by
        by_cases hc : y < h - 1
        · rw [if_pos hc, if_pos hc]
          exact ih _ hlt3 G3 x (y + 1) a b rfl hx (by omega) (by omega) (by omega)
        · rw [if_neg hc, if_neg hc]
      rw [h4]

end Gorender

namespace Gorender

/-- Claim C9: the recursive flood fill terminates on every finite
width-by-height grid, for every seed pixel, region id, palette and range:
rendered in the fuel model, every fuel beyond the number of fillable cells
(at most w * h) yields one and the same result, which is the grid the
pipeline's floodFill (fuel w * h + 1) computes. -/
theorem C9_flood_fill_terminates (pal : Palette) (r : ℤ) (w h : ℕ) (pr : Option ℕ)
    (g : Grid) (x y f1 f2 : ℕ) (hx : x < w) (hy : y < h)
    (hf1 : fillableCount pal pr r w h g < f1) (hf2 : fillableCount pal pr r w h g < f2) :
    floodFillFuel pal r w h pr f1 x y g = floodFillFuel pal r w h pr f2 x y g ∧
    floodFill pal r w h pr x y g = floodFillFuel pal r w h pr f1 x y g := by
  have hbound : fillableCount pal pr r w h g ≤ w * h := by
    calc fillableCount pal pr r w h g
        ≤ ((Finset.range w) ×ˢ (Finset.range h)).card := Finset.card_filter_le _ _
      _ = w * h := by rw [Finset.card_product, Finset.card_range, Finset.card_range]
  constructor
  · exact floodFillFuel_irrel pal r w h pr _ g x y f1 f2 rfl hx hy hf1 hf2
  · unfold floodFill
    exact floodFillFuel_irrel pal r w h pr _ g x y (w * h + 1) f1 rfl hx hy (by omega) hf1

/-- An empty palette for the C9 witness. -/
def c9pal : Palette := ⟨[], [], [], [], [], fun _ => false, fun _ => false⟩

/-- Witness for C9 on a concrete 1 by 1 grid: fuels 2 and 5 agree, and agree
with the pipeline fuel. -/
theorem C9_flood_fill_terminates_witness :
    floodFillFuel c9pal 1 1 1 none 2 0 0 zeroGrid = floodFillFuel c9pal 1 1 1 none 5 0 0 zeroGrid ∧
    floodFill c9pal 1 1 1 none 0 0 zeroGrid = floodFillFuel c9pal 1 1 1 none 2 0 0 zeroGrid :=
  C9_flood_fill_terminates c9pal 1 1 1 none zeroGrid 0 0 2 5 (by decide) (by decide)
    (by decide) (by decide)

end Gorender

namespace Gorender

/-- Invariance of a predicate under a left fold, with membership. -/
theorem foldlInvMem {α β : Type} (P : α → Prop) (f : α → β → α) :
    ∀ (l : List β), (∀ a b, b ∈ l → P a → P (f a b)) → ∀ a, P a → P (l.foldl f a) := by
  intro l
  induction l with
  | nil => intro _ a ha; exact ha
  | cons b rest ih =>
    intro h a ha
    exact ih (fun a2 b2 hb2 => h a2 b2 (List.mem_cons_of_mem b hb2)) (f a b)
      (h a b (List.mem_cons_self b rest) ha)

/-- The fields ditherOutput never writes are unchanged at every pixel. -/
theorem ditherOutput_grid_fields (defn : Definition) (g : Grid) (x y : ℕ) (err0 : RGB)
    (errCurr errNext : Rows) (p q : ℕ) :
    ((ditherOutput defn g x y err0 errCurr errNext).1 p q).Alpha = (g p q).Alpha ∧
    ((ditherOutput defn g x y err0 errCurr errNext).1 p q).ModalIndex = (g p q).ModalIndex ∧
    ((ditherOutput defn g x y err0 errCurr errNext).1 p q).Region = (g p q).Region ∧
    ((ditherOutput defn g x y err0 errCurr errNext).1 p q).Colour = (g p q).Colour ∧
    ((ditherOutput defn g x y err0 errCurr errNext).1 p q).SpecialColour = (g p q).SpecialColour ∧
    ((ditherOutput defn g x y err0 errCurr errNext).1 p q).Specialness = (g p q).Specialness := by
  by_cases hp : p = x
  · by_cases hq : q = y
    · subst hp hq
      rw [ditherOutput_grid_self]
      exact ⟨rfl, rfl, rfl, rfl, rfl, rfl⟩
    · rw [ditherOutput_grid_other defn g x y err0 errCurr errNext p q (Or.inr hq)]
      exact ⟨rfl, rfl, rfl, rfl, rfl, rfl⟩
  · rw [ditherOutput_grid_other defn g x y err0 errCurr errNext p q (Or.inl hp)]
    exact ⟨rfl, rfl, rfl, rfl, rfl, rfl⟩

theorem pass1Cell_grid (defn : Definition) (x y : ℕ) (st : Pass1State) :
    (pass1Cell defn x y st).grid =
      (ditherOutput defn st.grid x y RGB.zero st.errCurr st.errNext).1 := by
  simp only [pass1Cell]
  split
  · rfl
  · rfl

theorem pass2Cell_grid (defn : Definition) (rs : Regions) (x y : ℕ) (st : Pass2State) :
    (pass2Cell defn rs x y st).grid =
      (ditherOutput defn (stretchAt defn rs x y st.grid) x y RGB.zero
        st.errCurr st.errNext).1 := rfl

theorem stretchAt_other (defn : Definition) (rs : Regions) (x y : ℕ) (g : Grid) (p q : ℕ)
    (h : p ≠ x ∨ q ≠ y) : stretchAt defn rs x y g p q = g p q := by
  unfold stretchAt
  split
  · split
    · exact setPix_other g x y _ p q h
    · exact setPix_other g x y _ p q h
  · rfl

/-- The fields the colour stretch never writes are unchanged at the
stretched pixel. -/
theorem stretchAt_self_fields (defn : Definition) (rs : Regions) (x y : ℕ) (g : Grid) :
    (stretchAt defn rs x y g x y).Alpha = (g x y).Alpha ∧
    (stretchAt defn rs x y g x y).ModalIndex = (g x y).ModalIndex ∧
    (stretchAt defn rs x y g x y).Region = (g x y).Region ∧
    (stretchAt defn rs x y g x y).IsMaskColour = (g x y).IsMaskColour ∧
    (stretchAt defn rs x y g x y).IsAnimated = (g x y).IsAnimated ∧
    (stretchAt defn rs x y g x y).DitheredIndex = (g x y).DitheredIndex ∧
    (stretchAt defn rs x y g x y).Specialness = (g x y).Specialness := by
  unfold stretchAt
  split
  · split
    · rw [setPix_self]
      exact ⟨rfl, rfl, rfl, rfl, rfl, rfl, rfl⟩
    · rw [setPix_self]
      exact ⟨rfl, rfl, rfl, rfl, rfl, rfl, rfl⟩
  · exact ⟨rfl, rfl, rfl, rfl, rfl, rfl, rfl⟩

end Gorender

namespace Gorender

/-- Generic per-pixel description of a column-major dither pass: each cell
of the grid is processed exactly once, by one ditherOutput call whose input
grid agrees (in relation R) with the pass's input at that cell, and later
steps do not touch the cell again. -/
theorem dither_fold_cell {σ : Type} (defn : Definition) (w h : ℕ)
    (gridOf : σ → Grid) (step : ℕ → ℕ → σ → σ) (colPost : σ → σ)
    (R : ShaderInfo → ShaderInfo → Prop)
    (H1 : ∀ x y st p q, p ≠ x ∨ q ≠ y → gridOf (step x y st) p q = gridOf st p q)
    (H2 : ∀ st p q, gridOf (colPost st) p q = gridOf st p q)
    (H3 : ∀ x y st, ∃ gmid c n, R (gmid x y) (gridOf st x y) ∧
        gridOf (step x y st) x y = (ditherOutput defn gmid x y RGB.zero c n).1 x y)
    (st0 : σ) (x0 y0 : ℕ) (hx : x0 < w) (hy : y0 < h) :
    ∃ gmid c n, R (gmid x0 y0) (gridOf st0 x0 y0) ∧
      gridOf ((List.range w).foldl
          (fun st x => colPost ((List.range h).foldl (fun st y => step x y st) st)) st0) x0 y0 =
        (ditherOutput defn gmid x0 y0 RGB.zero c n).1 x0 y0 := by
  have innerAux : ∀ (k : ℕ), y0 < k → ∀ (x1 : ℕ) (st : σ),
      ∃ gmid c n, R (gmid x1 y0) (gridOf st x1 y0) ∧
        gridOf ((List.range k).foldl (fun st y => step x1 y st) st) x1 y0 =
          (ditherOutput defn gmid x1 y0 RGB.zero c n).1 x1 y0 := by
    intro k
    induction k with
    | zero => intro hy0; omega
    | succ m ih =>
      intro hy0 x1 st
      rw [List.range_succ, List.foldl_append, List.foldl_cons, List.foldl_nil]
      rcases Nat.lt_succ_iff_lt_or_eq.mp hy0 with hlt | heq0
      · obtain ⟨gmid, c, n, hR, heq⟩ := ih hlt x1 st
        refine ⟨gmid, c, n, hR, ?_⟩
        rw [H1 x1 m _ x1 y0 (Or.inr (by omega)), heq]
      · subst heq0
        have hmid : gridOf ((List.range y0).foldl (fun st y => step x1 y st) st) x1 y0 =
            gridOf st x1 y0 := by
          apply foldlInvMem (fun st2 => gridOf st2 x1 y0 = gridOf st x1 y0)
            (fun st2 y => step x1 y st2) (List.range y0) ?_ st rfl
          intro a b hb hP
          rw [List.mem_range] at hb
          rw [H1 x1 b a x1 y0 (Or.inr (by omega)), hP]
        obtain ⟨gmid, c, n, hR, heq⟩ :=
          H3 x1 y0 ((List.range y0).foldl (fun st y => step x1 y st) st)
        rw [hmid] at hR
        exact ⟨gmid, c, n, hR, heq⟩
  have colUnt : ∀ (x1 : ℕ) (st : σ) (p q : ℕ), p ≠ x1 →
      gridOf (colPost ((List.range h).foldl (fun st y => step x1 y st) st)) p q =
        gridOf st p q := by
    intro x1 st p q hp
    rw [H2]
    apply foldlInvMem (fun st2 => gridOf st2 p q = gridOf st p q)
      (fun st2 y => step x1 y st2) (List.range h) ?_ st rfl
    intro a b _ hP
    rw [H1 x1 b a p q (Or.inl hp), hP]
  have outerAux : ∀ (k : ℕ), x0 < k →
      ∃ gmid c n, R (gmid x0 y0) (gridOf st0 x0 y0) ∧
        gridOf ((List.range k).foldl
            (fun st x => colPost ((List.range h).foldl (fun st y => step x y st) st)) st0)
            x0 y0 =
          (ditherOutput defn gmid x0 y0 RGB.zero c n).1 x0 y0 := by
    intro k
    induction k with
    | zero => intro h0; omega
    | succ m ih =>
      intro hx0
      rw [List.range_succ, List.foldl_append, List.foldl_cons, List.foldl_nil]
      rcases Nat.lt_succ_iff_lt_or_eq.mp hx0 with hlt | heq0
      · obtain ⟨gmid, c, n, hR, heq⟩ := ih hlt
        refine ⟨gmid, c, n, hR, ?_⟩
        rw [colUnt m _ x0 y0 (by omega), heq]
      · subst heq0
        have hmid : gridOf ((List.range x0).foldl
            (fun st x => colPost ((List.range h).foldl (fun st y => step x y st) st)) st0)
            x0 y0 = gridOf st0 x0 y0 := by
          apply foldlInvMem (fun st2 => gridOf st2 x0 y0 = gridOf st0 x0 y0)
            (fun st2 x => colPost ((List.range h).foldl (fun st y => step x y st) st2))
            (List.range x0) ?_ st0 rfl
          intro a b hb hP
          rw [List.mem_range] at hb
          rw [colUnt b a x0 y0 (by omega), hP]
        obtain ⟨gmid, c, n, hR, heq⟩ := innerAux h hy x0
          ((List.range x0).foldl
            (fun st x => colPost ((List.range h).foldl (fun st y => step x y st) st)) st0)
        rw [hmid] at hR
        refine ⟨gmid, c, n, hR, ?_⟩
        rw [H2]
        exact heq
  exact outerAux w hx

end Gorender

namespace Gorender

/-- Per-pixel description of dithering pass 1: each cell is produced by one
ditherOutput call on an intermediate grid that still holds the pass input
at that cell. -/
theorem ditherPass1_cell (defn : Definition) (w h : ℕ) (st0 : Pass1State)
    (x0 y0 : ℕ) (hx : x0 < w) (hy : y0 < h) :
    ∃ gmid c n, gmid x0 y0 = st0.grid x0 y0 ∧
      (ditherPass1 defn w h st0).grid x0 y0 =
        (ditherOutput defn gmid x0 y0 RGB.zero c n).1 x0 y0 := by
  exact dither_fold_cell defn w h Pass1State.grid (fun x y st => pass1Cell defn x y st)
    (fun st => { st with errCurr := st.errNext, errNext := st.errCurr })
    (fun a b => a = b)
    (fun x y st p q hpq => by
      rw [pass1Cell_grid]
      exact ditherOutput_grid_other defn st.grid x y RGB.zero st.errCurr st.errNext p q hpq)
    (fun st p q => rfl)
    (fun x y st => ⟨st.grid, st.errCurr, st.errNext, rfl, by rw [pass1Cell_grid]⟩)
    st0 x0 y0 hx hy

/-- The fields of one pixel that the pass-2 colour stretch does not write. -/
def samePixelNonColour (a b : ShaderInfo) : Prop :=
  a.Alpha = b.Alpha ∧ a.ModalIndex = b.ModalIndex ∧ a.Region = b.Region ∧
  a.IsMaskColour = b.IsMaskColour ∧ a.IsAnimated = b.IsAnimated ∧
  a.DitheredIndex = b.DitheredIndex ∧ a.Specialness = b.Specialness

/-- Per-pixel description of dithering pass 2: each cell is produced by one
ditherOutput call on an intermediate grid whose cell agrees with the pass
input on every field except the stretched colours. -/
theorem ditherPass2_cell (defn : Definition) (rs : Regions) (w h : ℕ) (st0 : Pass2State)
    (x0 y0 : ℕ) (hx : x0 < w) (hy : y0 < h) :
    ∃ gmid c n, samePixelNonColour (gmid x0 y0) (st0.grid x0 y0) ∧
      (ditherPass2 defn rs w h st0).grid x0 y0 =
        (ditherOutput defn gmid x0 y0 RGB.zero c n).1 x0 y0 := by
  exact dither_fold_cell defn w h Pass2State.grid (fun x y st => pass2Cell defn rs x y st)
    (fun st => { st with errCurr := st.errNext, errNext := st.errCurr })
    samePixelNonColour
    (fun x y st p q hpq => by
      rw [pass2Cell_grid]
      rw [ditherOutput_grid_other defn _ x y RGB.zero st.errCurr st.errNext p q hpq]
      exact stretchAt_other defn rs x y st.grid p q hpq)
    (fun st p q => rfl)
    (fun x y st => by
      refine ⟨stretchAt defn rs x y st.grid, st.errCurr, st.errNext, ?_, by rw [pass2Cell_grid]⟩
      obtain ⟨h1, h2, h3, h4, h5, h6, h7⟩ := stretchAt_self_fields defn rs x y st.grid
      exact ⟨h1, h2, h3, h4, h5, h6, h7⟩)
    st0 x0 y0 hx hy

/-- Pointwise agreement of two grids on the Alpha, ModalIndex and
IsMaskColour fields. -/
def gridCoreEq (g g2 : Grid) : Prop :=
  ∀ p q, (g2 p q).Alpha = (g p q).Alpha ∧ (g2 p q).ModalIndex = (g p q).ModalIndex ∧
    (g2 p q).IsMaskColour = (g p q).IsMaskColour

theorem gridCoreEq_refl (g : Grid) : gridCoreEq g g := fun _p _q => ⟨rfl, rfl, rfl⟩

theorem gridCoreEq_trans {g1 g2 g3 : Grid} (h12 : gridCoreEq g1 g2) (h23 : gridCoreEq g2 g3) :
    gridCoreEq g1 g3 := by
  intro p q
  obtain ⟨a1, b1, c1⟩ := h12 p q
  obtain ⟨a2, b2, c2⟩ := h23 p q
  exact ⟨a2.trans a1, b2.trans b1, c2.trans c1⟩

/-- The region pass only writes Region fields: Alpha, ModalIndex and
IsMaskColour are untouched at every pixel. -/
theorem regionPass_core (defn : Definition) (w h : ℕ) (g0 : Grid) :
    gridCoreEq g0 (regionPass defn w h g0).1 := by
  have main : ∀ (st : Grid × Regions × ℤ), gridCoreEq g0 st.1 →
      gridCoreEq g0 ((List.range w).foldl (fun st x =>
        (List.range h).foldl (fun (st : Grid × Regions × ℤ) y =>
          if (st.1 x y).ModalIndex = 0 then st
          else if (st.1 x y).Region ≠ 0 then st
          else
            (floodFill defn.Palette st.2.2 w h
               (defn.Palette.rangeId ((st.1 x y).ModalIndex)) x y st.1,
             writeRegion st.2.1 st.2.2
               { zeroRegionInfo with Range := defn.Palette.rangeId ((st.1 x y).ModalIndex) },
             st.2.2 + 1)) st) st).1 := by
    intro st hst
    apply foldlInvMem (fun st2 => gridCoreEq g0 st2.1) _ (List.range w) ?_ st hst
    intro a x _ ha
    apply foldlInvMem (fun st2 => gridCoreEq g0 st2.1) _ (List.range h) ?_ a ha
    intro a2 y _ ha2
    by_cases h1 : (a2.1 x y).ModalIndex = 0
    · rw [if_pos h1]
      exact ha2
    · rw [if_neg h1]
      by_cases h2 : (a2.1 x y).Region ≠ 0
      · rw [if_pos h2]
        exact ha2
      · rw [if_neg h2]
        refine gridCoreEq_trans ha2 ?_
        intro p q
        have hro := floodFillFuel_regionOnly defn.Palette a2.2.2 w h
          (defn.Palette.rangeId ((a2.1 x y).ModalIndex)) (w * h + 1) x y a2.1
        obtain ⟨f1, f2, _, _, _, _, f3, _⟩ := regionOnly_fields hro p q
        exact ⟨f1, f2, f3⟩
  exact main (g0, fun _ => none, 1) (gridCoreEq_refl g0)

theorem shade_isMask_false (info : List Sample) (defn : Definition) (prev : ℕ) :
    (shade info defn prev).IsMaskColour = false := by
  simp only [shade]
  split
  · rfl
  · rfl

theorem shade_discard_zero (info : List Sample) (defn : Definition) (prev : ℕ)
    (hd : discardP defn (shadeAccOf info defn)) : shade info defn prev = zeroShaderInfo := by
  simp only [shade]
  rw [if_pos hd]

theorem nil_discard (defn : Definition) : discardP defn (shadeAccOf [] defn) := Or.inl rfl

theorem ditherChoice_alpha_lt (defn : Definition) (g : Grid) (x y : ℕ) (errCurr : Rows)
    (err0 : RGB) (h : (g x y).Alpha < defn.Manifest.EdgeThreshold) :
    (ditherChoice defn g x y errCurr err0).2.1 = 0 := by
  simp only [ditherChoice]
  rw [if_pos h]

end Gorender

namespace Gorender

/-- The render x coordinate of output pixel x (offset as in lines 125, 139). -/
def rxOf (spr : Sprite) (defn : Definition) (x : ℕ) : ℤ :=
  (x : ℤ) + ratTrunc (spr.OffsetX * defn.Scale)

/-- The render y coordinate of output pixel y. -/
def ryOf (spr : Sprite) (defn : Definition) (y : ℕ) : ℤ :=
  (y : ℤ) + ratTrunc (spr.OffsetY * defn.Scale)

/-- The bounds check of line 141: such pixels are skipped and stay zero. -/
def skippedPixel (spr : Sprite) (defn : Definition) (w h : ℕ) (x y : ℕ) : Prop :=
  rxOf spr defn x < 0 ∨ (w : ℤ) ≤ rxOf spr defn x ∨
    ryOf spr defn y < 0 ∨ (h : ℤ) ≤ ryOf spr defn y

instance (spr : Sprite) (defn : Definition) (w h x y : ℕ) :
    Decidable (skippedPixel spr defn w h x y) := by
  unfold skippedPixel
  infer_instance

theorem shadePass_isMask (ro : RenderOutput) (spr : Sprite) (defn : Definition) (w h : ℕ)
    (p q : ℕ) : ((shadePass ro spr defn w h) p q).IsMaskColour = false := by
  have main : ∀ (g : Grid), (∀ p2 q2, (g p2 q2).IsMaskColour = false) →
      ∀ p2 q2, (((List.range w).foldl (fun g (x : ℕ) =>
        (List.range h).foldl (fun (g : Grid) (y : ℕ) =>
          if (x : ℤ) + ratTrunc (spr.OffsetX * defn.Scale) < 0 ∨
              (w : ℤ) ≤ (x : ℤ) + ratTrunc (spr.OffsetX * defn.Scale) ∨
              (y : ℤ) + ratTrunc (spr.OffsetY * defn.Scale) < 0 ∨
              (h : ℤ) ≤ (y : ℤ) + ratTrunc (spr.OffsetY * defn.Scale) then g
          else
            setPix g x y (shade
              (ro ((x : ℤ) + ratTrunc (spr.OffsetX * defn.Scale)).toNat
                 ((y : ℤ) + ratTrunc (spr.OffsetY * defn.Scale)).toNat) defn
              (if x > 1 then (g (x - 1) y).ModalIndex else 0))) g) g) p2 q2).IsMaskColour =
        false := by
    intro g hg
    apply foldlInvMem (fun g2 => ∀ p2 q2, (g2 p2 q2).IsMaskColour = false) _
      (List.range w) ?_ g hg
    intro a x _ ha
    apply foldlInvMem (fun g2 => ∀ p2 q2, (g2 p2 q2).IsMaskColour = false) _
      (List.range h) ?_ a ha
    intro a2 y _ ha2
    intro p2 q2
    split
    · exact ha2 p2 q2
    · by_cases hp : p2 = x
      · by_cases hq : q2 = y
        · subst hp hq
          rw [setPix_self]
          exact shade_isMask_false _ defn _
        · rw [setPix_other _ x y _ p2 q2 (Or.inr hq)]
          exact ha2 p2 q2
      · rw [setPix_other _ x y _ p2 q2 (Or.inl hp)]
        exact ha2 p2 q2
  exact main zeroGrid (fun _ _ => rfl) p q

/-- Per-pixel description of the shading loop: an in-bounds pixel holds the
shade of its sample list for some left-neighbour modal index. -/
theorem shadePass_cell (ro : RenderOutput) (spr : Sprite) (defn : Definition) (w h : ℕ)
    (x0 y0 : ℕ) (hx : x0 < w) (hy : y0 < h)
    (hin : ¬ skippedPixel spr defn w h x0 y0) :
    ∃ prev, shadePass ro spr defn w h x0 y0 =
      shade (ro (rxOf spr defn x0).toNat (ryOf spr defn y0).toNat) defn prev := by
  have hin2 : ¬ ((x0 : ℤ) + ratTrunc (spr.OffsetX * defn.Scale) < 0 ∨
      (w : ℤ) ≤ (x0 : ℤ) + ratTrunc (spr.OffsetX * defn.Scale) ∨
      (y0 : ℤ) + ratTrunc (spr.OffsetY * defn.Scale) < 0 ∨
      (h : ℤ) ≤ (y0 : ℤ) + ratTrunc (spr.OffsetY * defn.Scale)) := hin
  have inner : ∀ (k : ℕ), y0 < k → ∀ (g : Grid),
      ∃ prev, ((List.range k).foldl (fun (g : Grid) (y : ℕ) =>
          if (x0 : ℤ) + ratTrunc (spr.OffsetX * defn.Scale) < 0 ∨
              (w : ℤ) ≤ (x0 : ℤ) + ratTrunc (spr.OffsetX * defn.Scale) ∨
              (y : ℤ) + ratTrunc (spr.OffsetY * defn.Scale) < 0 ∨
              (h : ℤ) ≤ (y : ℤ) + ratTrunc (spr.OffsetY * defn.Scale) then g
          else
            setPix g x0 y (shade
              (ro ((x0 : ℤ) + ratTrunc (spr.OffsetX * defn.Scale)).toNat
                 ((y : ℤ) + ratTrunc (spr.OffsetY * defn.Scale)).toNat) defn
              (if x0 > 1 then (g (x0 - 1) y).ModalIndex else 0))) g) x0 y0 =
        shade (ro (rxOf spr defn x0).toNat (ryOf spr defn y0).toNat) defn prev := by
    intro k
    induction k with
    | zero => intro hy0; omega
    | succ m ih =>
      intro hy0 g
      rw [List.range_succ, List.foldl_append, List.foldl_cons, List.foldl_nil]
      rcases Nat.lt_succ_iff_lt_or_eq.mp hy0 with hlt | heq0
      · obtain ⟨prev, hprev⟩ := ih hlt g
        refine ⟨prev, ?_⟩
        split
        · exact hprev
        · rw [setPix_other _ x0 m _ x0 y0 (Or.inr (by omega))]
          exact hprev
      · subst heq0
        rw [if_neg hin2, setPix_self]
        exact ⟨_, rfl⟩
  have colUnt : ∀ (x : ℕ) (g : Grid) (p q : ℕ), p ≠ x →
      ((List.range h).foldl (fun (g : Grid) (y : ℕ) =>
          if (x : ℤ) + ratTrunc (spr.OffsetX * defn.Scale) < 0 ∨
              (w : ℤ) ≤ (x : ℤ) + ratTrunc (spr.OffsetX * defn.Scale) ∨
              (y : ℤ) + ratTrunc (spr.OffsetY * defn.Scale) < 0 ∨
              (h : ℤ) ≤ (y : ℤ) + ratTrunc (spr.OffsetY * defn.Scale) then g
          else
            setPix g x y (shade
              (ro ((x : ℤ) + ratTrunc (spr.OffsetX * defn.Scale)).toNat
                 ((y : ℤ) + ratTrunc (spr.OffsetY * defn.Scale)).toNat) defn
              (if x > 1 then (g (x - 1) y).ModalIndex else 0))) g) p q = g p q := by
    intro x g p q hp
    apply foldlInvMem (fun g2 => g2 p q = g p q) _ (List.range h) ?_ g rfl
    intro a y _ ha
    split
    · exact ha
    · rw [setPix_other _ x y _ p q (Or.inl hp)]
      exact ha
  have outer : ∀ (k : ℕ), x0 < k →
      ∃ prev, ((List.range k).foldl (fun g (x : ℕ) =>
        (List.range h).foldl (fun (g : Grid) (y : ℕ) =>
          if (x : ℤ) + ratTrunc (spr.OffsetX * defn.Scale) < 0 ∨
              (w : ℤ) ≤ (x : ℤ) + ratTrunc (spr.OffsetX * defn.Scale) ∨
              (y : ℤ) + ratTrunc (spr.OffsetY * defn.Scale) < 0 ∨
              (h : ℤ) ≤ (y : ℤ) + ratTrunc (spr.OffsetY * defn.Scale) then g
          else
            setPix g x y (shade
              (ro ((x : ℤ) + ratTrunc (spr.OffsetX * defn.Scale)).toNat
                 ((y : ℤ) + ratTrunc (spr.OffsetY * defn.Scale)).toNat) defn
              (if x > 1 then (g (x - 1) y).ModalIndex else 0))) g) zeroGrid) x0 y0 =
        shade (ro (rxOf spr defn x0).toNat (ryOf spr defn y0).toNat) defn prev := by
    intro k
    induction k with
    | zero => intro h0; omega
    | succ m ih =>
      intro hx0
      rw [List.range_succ, List.foldl_append, List.foldl_cons, List.foldl_nil]
      rcases Nat.lt_succ_iff_lt_or_eq.mp hx0 with hlt | heq0
      · obtain ⟨prev, hprev⟩ := ih hlt
        refine ⟨prev, ?_⟩
        rw [colUnt m _ x0 y0 (by omega)]
        exact hprev
      · subst heq0
        exact inner h hy _
  exact outer w hx

end Gorender

namespace Gorender

/-- The grid after the shading and region-discovery stages. -/
def regionGrid (ro : RenderOutput) (spr : Sprite) (defn : Definition) (w h : ℕ) : Grid :=
  (regionPass defn w h (shadePass ro spr defn w h)).1

/-- The regions map after the region-discovery stage. -/
def regionRegs (ro : RenderOutput) (spr : Sprite) (defn : Definition) (w h : ℕ) : Regions :=
  (regionPass defn w h (shadePass ro spr defn w h)).2.1

/-- The full state after dithering pass 1. -/
def pass1St (ro : RenderOutput) (spr : Sprite) (defn : Definition) (w h : ℕ) : Pass1State :=
  ditherPass1 defn w h
    ⟨regionGrid ro spr defn w h, regionRegs ro spr defn w h, zeroRows, zeroRows⟩

/-- The full state after the stretch and dithering pass 2. -/
def pass2St (ro : RenderOutput) (spr : Sprite) (defn : Definition) (w h : ℕ) : Pass2State :=
  ditherPass2 defn (distancePass defn (pass1St ro spr defn w h).regs) w h
    ⟨(pass1St ro spr defn w h).grid, (pass1St ro spr defn w h).errCurr,
     (pass1St ro spr defn w h).errNext⟩

theorem GetShaderOutput_stages (ro : RenderOutput) (spr : Sprite) (defn : Definition)
    (w h : ℕ) : GetShaderOutput ro spr defn w h = (pass2St ro spr defn w h).grid := rfl

/-- Claim C1 amended: a pixel whose sample list is empty or satisfies the
hard-edge threshold test shades to the all-zero ShaderInfo, and provided
EdgeThreshold is positive, its DitheredIndex after the full pipeline is 0.
(With EdgeThreshold zero or negative the zero pixel falls through to the
regular matcher branch and can receive a nonzero index.) -/
theorem C1_transparent_discard (ro : RenderOutput) (spr : Sprite) (defn : Definition)
    (w h x y : ℕ) (hx : x < w) (hy : y < h)
    (hin : ¬ skippedPixel spr defn w h x y)
    (hdisc : ro (rxOf spr defn x).toNat (ryOf spr defn y).toNat = [] ∨
      discardP defn (shadeAccOf (ro (rxOf spr defn x).toNat (ryOf spr defn y).toNat) defn)) :
    (∀ prev, shade (ro (rxOf spr defn x).toNat (ryOf spr defn y).toNat) defn prev
        = zeroShaderInfo) ∧
    (0 < defn.Manifest.EdgeThreshold →
      (GetShaderOutput ro spr defn w h x y).DitheredIndex = 0) := by
  have hd : discardP defn (shadeAccOf (ro (rxOf spr defn x).toNat (ryOf spr defn y).toNat) defn) := by
    rcases hdisc with hnil | hd
    · rw [hnil]
      exact nil_discard defn
    · exact hd
  have hshade : ∀ prev, shade (ro (rxOf spr defn x).toNat (ryOf spr defn y).toNat) defn prev
      = zeroShaderInfo := fun prev => shade_discard_zero _ defn prev hd
  refine ⟨hshade, ?_⟩
  intro hET
  obtain ⟨prev, hsp⟩ := shadePass_cell ro spr defn w h x y hx hy hin
  have halpha0 : (shadePass ro spr defn w h x y).Alpha = 0 := by
    rw [hsp, hshade prev]
    rfl
  have halpha1 : (regionGrid ro spr defn w h x y).Alpha = 0 := by
    have hr := (regionPass_core defn w h (shadePass ro spr defn w h)) x y
    show ((regionPass defn w h (shadePass ro spr defn w h)).1 x y).Alpha = 0
    rw [hr.1, halpha0]
  obtain ⟨gm1, c1, n1, hgm1, hs1⟩ := ditherPass1_cell defn w h
    ⟨regionGrid ro spr defn w h, regionRegs ro spr defn w h, zeroRows, zeroRows⟩ x y hx hy
  have halpha2 : ((pass1St ro spr defn w h).grid x y).Alpha = 0 := by
    show ((ditherPass1 defn w h
      ⟨regionGrid ro spr defn w h, regionRegs ro spr defn w h, zeroRows, zeroRows⟩).grid
        x y).Alpha = 0
    rw [hs1, (ditherOutput_grid_fields defn gm1 x y RGB.zero c1 n1 x y).1, hgm1]
    exact halpha1
  obtain ⟨gm2, c2, n2, hR2, hs2⟩ := ditherPass2_cell defn
    (distancePass defn (pass1St ro spr defn w h).regs) w h
    ⟨(pass1St ro spr defn w h).grid, (pass1St ro spr defn w h).errCurr,
     (pass1St ro spr defn w h).errNext⟩ x y hx hy
  rw [GetShaderOutput_stages]
  show ((ditherPass2 defn (distancePass defn (pass1St ro spr defn w h).regs) w h
    ⟨(pass1St ro spr defn w h).grid, (pass1St ro spr defn w h).errCurr,
     (pass1St ro spr defn w h).errNext⟩).grid x y).DitheredIndex = 0
  rw [hs2, ditherOutput_grid_self]
  show (ditherChoice defn gm2 x y c2 RGB.zero).2.1 = 0
  apply ditherChoice_alpha_lt
  have halpha3 : (gm2 x y).Alpha = 0 := by
    rw [hR2.1]
    exact halpha2
  rw [halpha3]
  exact hET

/-- A palette whose regular list starts with the magenta sentinel followed
by black, with entry 0 rangeless and entry 1 in range 0. -/
def c1palette : Palette :=
  ⟨[⟨RGB.zero, none⟩, ⟨RGB.zero, some 0⟩],
   [⟨1, 1, false, false, false⟩],
   [⟨65535, 0, 65535⟩, ⟨0, 0, 0⟩], [], [],
   fun i => decide (i = 1), fun _ => false⟩

/-- A definition with EdgeThreshold zero over c1palette. -/
def c1defn : Definition := ⟨c1palette, 1, false, ⟨1, 0, 0, 0, 0, false, false⟩⟩

/-- The same definition with a positive EdgeThreshold. -/
def c1defnPos : Definition := ⟨c1palette, 1, false, ⟨1, 1/2, 0, 0, 0, false, false⟩⟩

/-- The empty scene: every pixel has an empty sample list. -/
def c1ro : RenderOutput := fun _ _ => []

def c1spr : Sprite := ⟨0, 0⟩

/-- Claim C1 counterexample: on a 1 by 1 sprite with an empty sample list
and EdgeThreshold 0, shade returns the zero ShaderInfo as claimed, but the
final DitheredIndex is 1, not 0: the zero pixel has Alpha 0, which is not
below the zero threshold, so the regular matcher branch runs and picks the
nearest non-sentinel palette entry, index 1. -/
theorem C1_counterexample :
    c1ro 0 0 = [] ∧
    shade (c1ro 0 0) c1defn 0 = zeroShaderInfo ∧
    (GetShaderOutput c1ro c1spr c1defn 1 1 0 0).DitheredIndex = 1 ∧ (1 : ℕ) ≠ 0 :=
  ⟨rfl, by decide, by decide, by decide⟩

/-- Witness for the amended C1 at the same scene with EdgeThreshold 1/2. -/
theorem C1_transparent_discard_witness :
    (∀ prev, shade (c1ro (rxOf c1spr c1defnPos 0).toNat (ryOf c1spr c1defnPos 0).toNat)
        c1defnPos prev = zeroShaderInfo) ∧
    (0 < c1defnPos.Manifest.EdgeThreshold →
      (GetShaderOutput c1ro c1spr c1defnPos 1 1 0 0).DitheredIndex = 0) :=
  C1_transparent_discard c1ro c1spr c1defnPos 1 1 0 0 (by decide) (by decide) (by decide)
    (Or.inl rfl)

end Gorender

namespace Gorender

/-- Claim C10: the ditherer never clears IsMaskColour; one call sets it to
its old value or-ed with the specialness of the chosen index, and after the
full pipeline a pixel's IsMaskColour is true exactly when the index chosen
for it in pass 1 or in pass 2 (the final DitheredIndex) was a special
colour. -/
theorem C10_is_mask_monotone (defn : Definition) :
    (∀ (g : Grid) (x y : ℕ) (err0 : RGB) (errCurr errNext : Rows),
      ((ditherOutput defn g x y err0 errCurr errNext).1 x y).IsMaskColour =
        ((g x y).IsMaskColour ||
          defn.Palette.Special ((ditherOutput defn g x y err0 errCurr errNext).2.2.2))) ∧
    (∀ (ro : RenderOutput) (spr : Sprite) (w h x y : ℕ), x < w → y < h →
      (GetShaderOutput ro spr defn w h x y).IsMaskColour =
        (defn.Palette.Special (((pass1St ro spr defn w h).grid x y).DitheredIndex) ||
         defn.Palette.Special ((GetShaderOutput ro spr defn w h x y).DitheredIndex))) := by
  constructor
  · intro g x y err0 errCurr errNext
    rw [ditherOutput_grid_self]
  · intro ro spr w h x y hx hy
    obtain ⟨gm1, c1, n1, hgm1, hs1⟩ := ditherPass1_cell defn w h
      ⟨regionGrid ro spr defn w h, regionRegs ro spr defn w h, zeroRows, zeroRows⟩ x y hx hy
    have hmask0 : (regionGrid ro spr defn w h x y).IsMaskColour = false := by
      have hr := (regionPass_core defn w h (shadePass ro spr defn w h)) x y
      show ((regionPass defn w h (shadePass ro spr defn w h)).1 x y).IsMaskColour = false
      rw [hr.2.2]
      exact shadePass_isMask ro spr defn w h x y
    have hp1grid : (pass1St ro spr defn w h).grid x y =
        (ditherOutput defn gm1 x y RGB.zero c1 n1).1 x y := hs1
    have hp1mask : ((pass1St ro spr defn w h).grid x y).IsMaskColour =
        defn.Palette.Special ((ditherOutput defn gm1 x y RGB.zero c1 n1).2.2.2) := by
      rw [hp1grid, ditherOutput_grid_self]
      show ((gm1 x y).IsMaskColour || _) = _
      rw [hgm1]
      show ((regionGrid ro spr defn w h x y).IsMaskColour || _) = _
      rw [hmask0, Bool.false_or]
    have hp1dith : ((pass1St ro spr defn w h).grid x y).DitheredIndex =
        (ditherOutput defn gm1 x y RGB.zero c1 n1).2.2.2 := by
      rw [hp1grid, ditherOutput_grid_self]
    obtain ⟨gm2, c2, n2, hR2, hs2⟩ := ditherPass2_cell defn
      (distancePass defn (pass1St ro spr defn w h).regs) w h
      ⟨(pass1St ro spr defn w h).grid, (pass1St ro spr defn w h).errCurr,
       (pass1St ro spr defn w h).errNext⟩ x y hx hy
    have hfin : GetShaderOutput ro spr defn w h x y =
        (ditherOutput defn gm2 x y RGB.zero c2 n2).1 x y := by
      rw [GetShaderOutput_stages]
      exact hs2
    have hgm2mask : (gm2 x y).IsMaskColour = ((pass1St ro spr defn w h).grid x y).IsMaskColour :=
      hR2.2.2.2.1
    rw [hfin, ditherOutput_grid_self]
    show ((gm2 x y).IsMaskColour || _) = _
    rw [hgm2mask, hp1mask, hp1dith]

/-- Witness for C10 on the concrete empty 1 by 1 scene. -/
theorem C10_is_mask_monotone_witness :
    (GetShaderOutput c1ro c1spr c1defn 1 1 0 0).IsMaskColour =
      (c1defn.Palette.Special (((pass1St c1ro c1spr c1defn 1 1).grid 0 0).DitheredIndex) ||
       c1defn.Palette.Special ((GetShaderOutput c1ro c1spr c1defn 1 1 0 0).DitheredIndex)) :=
  (C10_is_mask_monotone c1defn).2 c1ro c1spr 1 1 0 0 (by decide) (by decide)

end Gorender

namespace Gorender

/-- A palette with two ranges: range 0 spans indices 1-2, range 1 holds
index 3; the regular list starts with the magenta sentinel. -/
def c2palette : Palette :=
  ⟨[⟨RGB.zero, none⟩, ⟨⟨1000, 0, 0⟩, some 0⟩, ⟨⟨2000, 0, 0⟩, some 0⟩,
    ⟨⟨60000, 0, 0⟩, some 1⟩],
   [⟨1, 2, false, false, false⟩, ⟨3, 3, false, false, false⟩],
   [⟨65535, 0, 65535⟩, ⟨1000, 0, 0⟩, ⟨2000, 0, 0⟩, ⟨60000, 0, 0⟩], [], [],
   fun i => decide (i = 1 ∨ i = 2 ∨ i = 3), fun _ => false⟩

def c2defn : Definition := ⟨c2palette, 1, false, ⟨1, 1/2, 0, 0, 0, false, false⟩⟩

/-- One collided unit-influence sample of the given index and colour. -/
def c2sample (i : ℕ) (col : RGB) : Sample :=
  ⟨true, i, 0, 1, 1, false, 0, col, col, RGB.zero, RGB.zero, RGB.zero, RGB.zero,
   RGB.zero, RGB.zero, RGB.zero⟩

/-- A 2 by 1 scene: pixel 0 samples index 1 with the exact colour of entry
1, pixel 1 samples index 2 but with the colour of entry 3 (so its dithered
index 3 falls outside the region's range 0). -/
def c2ro : RenderOutput := fun rx _ =>
  if rx = 0 then [c2sample 1 ⟨1000, 0, 0⟩]
  else if rx = 1 then [c2sample 2 ⟨60000, 0, 0⟩] else []

def c2spr : Sprite := ⟨0, 0⟩

/-- Claim C2 evaluated at the failing input: both pixels of the 2 by 1
sprite belong to region 1 (their modal indices 1 and 2 share range 0), so
the claim expects regions[1].Size = 2 after pass 1; but pixel 1 dithers to
index 3, outside range 0, the write-back at line 233 is skipped, its Size
increment is lost, and the code leaves Size = 1 (equal to SizeInRange). -/
theorem C2_region_size_eval :
    ((pass1St c2ro c2spr c2defn 2 1).grid 0 0).Region = 1 ∧
    ((pass1St c2ro c2spr c2defn 2 1).grid 1 0).Region = 1 ∧
    ((pass1St c2ro c2spr c2defn 2 1).grid 0 0).DitheredIndex = 1 ∧
    ((pass1St c2ro c2spr c2defn 2 1).grid 1 0).DitheredIndex = 3 ∧
    (readRegion (pass1St c2ro c2spr c2defn 2 1).regs 1).Size = 1 ∧
    (readRegion (pass1St c2ro c2spr c2defn 2 1).regs 1).SizeInRange = 1 ∧
    (1 : ℕ) ≠ 2 :=
  ⟨by decide, by decide, by decide, by decide, by decide, by decide, by decide⟩

end Gorender

namespace Gorender

/-- 4-connectedness of two grid coordinates. -/
def adj (p q : ℕ × ℕ) : Prop :=
  (p.1 = q.1 ∧ (p.2 + 1 = q.2 ∨ q.2 + 1 = p.2)) ∨
  (p.2 = q.2 ∧ (p.1 + 1 = q.1 ∨ q.1 + 1 = p.1))

theorem adj_symm {p q : ℕ × ℕ} (h : adj p q) : adj q p := by
  rcases h with ⟨h1, h2⟩ | ⟨h1, h2⟩
  · exact Or.inl ⟨h1.symm, h2.symm⟩
  · exact Or.inr ⟨h1.symm, h2.symm⟩

/-- In-bounds coordinates. -/
def inB (w h : ℕ) (p : ℕ × ℕ) : Prop := p.1 < w ∧ p.2 < h

/-- The palette range identity of the modal index at a coordinate. -/
def rangeAt (pal : Palette) (g : Grid) (p : ℕ × ℕ) : Option ℕ :=
  pal.rangeId ((g p.1 p.2).ModalIndex)

/-- One 4-connected step between in-bounds cells that both carry the
identical range object. -/
def rStep (pal : Palette) (g : Grid) (w h : ℕ) (ρ : Option ℕ) (p q : ℕ × ℕ) : Prop :=
  inB w h p ∧ inB w h q ∧ adj p q ∧ rangeAt pal g p = ρ ∧ rangeAt pal g q = ρ

/-- Reachability by 4-connected steps through cells of the identical range. -/
def reach (pal : Palette) (g : Grid) (w h : ℕ) (ρ : Option ℕ) (p q : ℕ × ℕ) : Prop :=
  Relation.ReflTransGen (rStep pal g w h ρ) p q

theorem rStep_symm {pal : Palette} {g : Grid} {w h : ℕ} {ρ : Option ℕ} {p q : ℕ × ℕ}
    (hs : rStep pal g w h ρ p q) : rStep pal g w h ρ q p :=
  ⟨hs.2.1, hs.1, adj_symm hs.2.2.1, hs.2.2.2.2, hs.2.2.2.1⟩

theorem reach_symm {pal : Palette} {g : Grid} {w h : ℕ} {ρ : Option ℕ} {p q : ℕ × ℕ}
    (hr : reach pal g w h ρ p q) : reach pal g w h ρ q p := by
  induction hr with
  | refl => exact Relation.ReflTransGen.refl
  | tail _hab hbc ih => exact Relation.ReflTransGen.head (rStep_symm hbc) ih

theorem reach_trans {pal : Palette} {g : Grid} {w h : ℕ} {ρ : Option ℕ} {p q s : ℕ × ℕ}
    (h1 : reach pal g w h ρ p q) (h2 : reach pal g w h ρ q s) : reach pal g w h ρ p s :=
  Relation.ReflTransGen.trans h1 h2

/-- Along a reach path the endpoint stays in bounds. -/
theorem reach_inB_end {pal : Palette} {g : Grid} {w h : ℕ} {ρ : Option ℕ} {p q : ℕ × ℕ}
    (hr : reach pal g w h ρ p q) (hp : inB w h p) : inB w h q := by
  induction hr with
  | refl => exact hp
  | tail _hab hbc _ih => exact hbc.2.1

/-- Along a reach path the endpoint keeps the range. -/
theorem reach_range_end {pal : Palette} {g : Grid} {w h : ℕ} {ρ : Option ℕ} {p q : ℕ × ℕ}
    (hr : reach pal g w h ρ p q) (hp : rangeAt pal g p = ρ) : rangeAt pal g q = ρ := by
  induction hr with
  | refl => exact hp
  | tail _hab hbc _ih => exact hbc.2.2.2.2

/-- Reachability only depends on the grid through rangeAt. -/
theorem reach_congr {pal : Palette} {g g2 : Grid} {w h : ℕ} {ρ : Option ℕ}
    (hr : ∀ p, rangeAt pal g2 p = rangeAt pal g p) (p q : ℕ × ℕ) :
    reach pal g2 w h ρ p q ↔ reach pal g w h ρ p q := by
  constructor
  · exact Relation.ReflTransGen.mono (fun a b hs =>
      ⟨hs.1, hs.2.1, hs.2.2.1, (hr a) ▸ hs.2.2.2.1, (hr b) ▸ hs.2.2.2.2⟩)
  · exact Relation.ReflTransGen.mono (fun a b hs =>
      ⟨hs.1, hs.2.1, hs.2.2.1, (hr a).symm ▸ hs.2.2.2.1, (hr b).symm ▸ hs.2.2.2.2⟩)

theorem regionOnly_rangeAt {r : ℤ} {g g2 : Grid} (hro : regionOnly r g g2) (pal : Palette)
    (p : ℕ × ℕ) : rangeAt pal g2 p = rangeAt pal g p := by
  unfold rangeAt
  rw [(regionOnly_fields hro p.1 p.2).2.1]

/-- A cell already carrying the region id keeps it through a flood fill. -/
theorem regionOnly_keeps_mark {r : ℤ} {g g2 : Grid} (hro : regionOnly r g g2) (p q : ℕ)
    (hm : (g p q).Region = r) : (g2 p q).Region = r := by
  rcases hro p q with h2 | h2
  · rw [h2]
    exact hm
  · rw [h2]

/-- After a flood fill, each cell either kept its value or was marked. -/
theorem regionOnly_region_cases {r : ℤ} {g g2 : Grid} (hro : regionOnly r g g2) (p q : ℕ) :
    (g2 p q).Region = (g p q).Region ∨ (g2 p q).Region = r := by
  rcases hro p q with h2 | h2
  · rw [h2]
    exact Or.inl rfl
  · rw [h2]
    exact Or.inr rfl

end Gorender

namespace Gorender

/-- Soundness of the flood fill: every cell it changes is reachable from
the seed through same-range in-bounds steps and itself carries the range;
and if it changes anything at all, the seed carries the range. -/
theorem floodFillFuel_sound (pal : Palette) (r : ℤ) (w h : ℕ) (ρ : Option ℕ) :
    ∀ (f : ℕ), ∀ (x y : ℕ) (g : Grid), x < w → y < h →
      (∀ p q : ℕ, floodFillFuel pal r w h ρ f x y g p q ≠ g p q →
        reach pal g w h ρ (x, y) (p, q) ∧ rangeAt pal g (p, q) = ρ) ∧
      ((∃ p q, floodFillFuel pal r w h ρ f x y g p q ≠ g p q) →
        rangeAt pal g (x, y) = ρ) := by
  intro f
  induction f with
  | zero =>
    intro x y g _hx _hy
    constructor
    · intro p q hpq
      exact absurd rfl hpq
    · intro ⟨p, q, hpq⟩
      exact absurd rfl hpq
  | succ f ihf =>
    intro x y g hx hy
    simp only [floodFillFuel]
    by_cases hguard : pal.rangeId ((g x y).ModalIndex) ≠ ρ ∨ (g x y).Region = r
    · rw [if_pos hguard]
      constructor
      · intro p q hpq
        exact absurd rfl hpq
      · intro ⟨p, q, hpq⟩
        exact absurd rfl hpq
    · rw [if_neg hguard]
      push_neg at hguard
      have hrange : rangeAt pal g (x, y) = ρ := hguard.1
      have good0 : regionOnly r g (setPix g x y { g x y with Region := r }) ∧
          ∀ p q, setPix g x y { g x y with Region := r } p q ≠ g p q →
            reach pal g w h ρ (x, y) (p, q) ∧ rangeAt pal g (p, q) = ρ := by
        refine ⟨regionOnly_setPix r g x y, ?_⟩
        intro p q hpq
        by_cases hp : p = x
        · by_cases hq : q = y
          · subst hp hq
            exact ⟨Relation.ReflTransGen.refl, hrange⟩
          · rw [setPix_other g x y _ p q (Or.inr hq)] at hpq
            exact absurd rfl hpq
        · rw [setPix_other g x y _ p q (Or.inl hp)] at hpq
          exact absurd rfl hpq
      have step : ∀ (x2 y2 : ℕ) (cond : Prop) [inst : Decidable cond] (g2 : Grid),
          (cond → x2 < w ∧ y2 < h) → (cond → adj (x, y) (x2, y2)) →
          (regionOnly r g g2 ∧ ∀ p q, g2 p q ≠ g p q →
            reach pal g w h ρ (x, y) (p, q) ∧ rangeAt pal g (p, q) = ρ) →
          (regionOnly r g (if cond then floodFillFuel pal r w h ρ f x2 y2 g2 else g2) ∧
            ∀ p q, (if cond then floodFillFuel pal r w h ρ f x2 y2 g2 else g2) p q ≠ g p q →
              reach pal g w h ρ (x, y) (p, q) ∧ rangeAt pal g (p, q) = ρ) := by
        intro x2 y2 cond inst g2 hb hadj hgood
        obtain ⟨hroA, hB⟩ := hgood
        by_cases hc : cond
        · rw [if_pos hc]
          obtain ⟨hx2, hy2⟩ := hb hc
          have hro2 : regionOnly r g (floodFillFuel pal r w h ρ f x2 y2 g2) :=
            regionOnly_trans hroA (floodFillFuel_regionOnly pal r w h ρ f x2 y2 g2)
          refine ⟨hro2, ?_⟩
          intro p q hpq
          by_cases hch : floodFillFuel pal r w h ρ f x2 y2 g2 p q = g2 p q
          · rw [hch] at hpq
            exact hB p q hpq
          · obtain ⟨hreach2, hrng2⟩ := (ihf x2 y2 g2 hx2 hy2).1 p q hch
            have hx2rng : rangeAt pal g2 (x2, y2) = ρ :=
              (ihf x2 y2 g2 hx2 hy2).2 ⟨p, q, hch⟩
            have htr : ∀ c, rangeAt pal g2 c = rangeAt pal g c :=
              fun c => regionOnly_rangeAt hroA pal c
            have hreachg : reach pal g w h ρ (x2, y2) (p, q) :=
              (reach_congr htr _ _).mp hreach2
            have hrngg : rangeAt pal g (p, q) = ρ := by
              rw [← htr (p, q)]
              exact hrng2
            have hedge : rStep pal g w h ρ (x, y) (x2, y2) :=
              ⟨⟨hx, hy⟩, ⟨hx2, hy2⟩, hadj hc, hrange, by rw [← htr (x2, y2)]; exact hx2rng⟩
            exact ⟨Relation.ReflTransGen.head hedge hreachg, hrngg⟩
        · rw [if_neg hc]
          exact ⟨hroA, hB⟩
      have h1 := step (x - 1) y (0 < x) _ (fun hc => ⟨by omega, hy⟩)
        (fun hc => Or.inr ⟨rfl, Or.inr (by omega)⟩) good0
      have h2 := step x (y - 1) (0 < y) _ (fun hc => ⟨hx, by omega⟩)
        (fun hc => Or.inl ⟨rfl, Or.inr (by omega)⟩) h1
      have h3 := step (x + 1) y (x < w - 1) _ (fun hc => ⟨by omega, hy⟩)
        (fun hc => Or.inr ⟨rfl, Or.inl rfl⟩) h2
      have h4 := step x (y + 1) (y < h - 1) _ (fun hc => ⟨hx, by omega⟩)
        (fun hc => Or.inl ⟨rfl, Or.inl rfl⟩) h3
      exact ⟨h4.2, fun _ => hrange⟩

end Gorender

namespace Gorender

/-- A flood fill whose seed carries the range marks the seed. -/
theorem floodFillFuel_marks (pal : Palette) (r : ℤ) (w h : ℕ) (pr : Option ℕ)
    (f x y : ℕ) (g : Grid) (hrange : pal.rangeId ((g x y).ModalIndex) = pr) :
    ((floodFillFuel pal r w h pr (f + 1) x y g) x y).Region = r := by
  simp only [floodFillFuel]
  by_cases hreg : (g x y).Region = r
  · rw [if_pos (Or.inr hreg)]
    exact hreg
  · have hguard : ¬(pal.rangeId ((g x y).ModalIndex) ≠ pr ∨ (g x y).Region = r) := by
      push_neg
      exact ⟨hrange, hreg⟩
    rw [if_neg hguard]
    have step : ∀ (x2 y2 : ℕ) (cond : Prop) [Decidable cond] (g2 : Grid),
        regionOnly r (setPix g x y { g x y with Region := r }) g2 →
        regionOnly r (setPix g x y { g x y with Region := r })
          (if cond then floodFillFuel pal r w h pr f x2 y2 g2 else g2) := by
      intro x2 y2 cond inst g2 hg2
      by_cases hc : cond
      · rw [if_pos hc]
        exact regionOnly_trans hg2 (floodFillFuel_regionOnly pal r w h pr f x2 y2 g2)
      · rw [if_neg hc]
        exact hg2
    have h1 := step (x - 1) y (0 < x) (setPix g x y { g x y with Region := r })
      (regionOnly_refl r _)
    have h2 := step x (y - 1) (0 < y) _ h1
    have h3 := step (x + 1) y (x < w - 1) _ h2
    have h4 := step x (y + 1) (y < h - 1) _ h3
    exact regionOnly_keeps_mark h4 x y (by rw [setPix_self])

end Gorender

namespace Gorender

/-- If the flood fill marks a previously unmarked cell, it also marks every
in-bounds 4-neighbour of that cell carrying the range, given ample fuel. -/
theorem floodFillFuel_closed (pal : Palette) (r : ℤ) (w h : ℕ) (pr : Option ℕ) :
    ∀ (n : ℕ) (g : Grid) (x y f : ℕ), fillableCount pal pr r w h g = n → n < f →
      x < w → y < h →
      ∀ cx cy : ℕ, cx < w → cy < h →
        ((floodFillFuel pal r w h pr f x y g) cx cy).Region = r →
        (g cx cy).Region ≠ r →
        ∀ dx dy : ℕ, dx < w → dy < h → adj (cx, cy) (dx, dy) →
          rangeAt pal g (dx, dy) = pr →
          ((floodFillFuel pal r w h pr f x y g) dx dy).Region = r := by
  intro n
  induction n using Nat.strong_induction_on with
  | _ n ih =>
    intro g x y f hn hf hx hy cx cy hcx hcy hcr hcg dx dy hdx hdy hadj hdr
    obtain ⟨f1, rfl⟩ : ∃ f1, f = f1 + 1 := ⟨f - 1, by omega⟩
    simp only [floodFillFuel] at hcr ⊢
    by_cases hguard : pal.rangeId ((g x y).ModalIndex) ≠ pr ∨ (g x y).Region = r
    · rw [if_pos hguard] at hcr
      exact absurd hcr hcg
    · rw [if_neg hguard] at hcr ⊢
      push_neg at hguard
      obtain ⟨hrange, hreg⟩ := hguard
      have hmem : (⟨x, y⟩ : ℕ × ℕ) ∈ ((Finset.range w) ×ˢ (Finset.range h)).filter
          (fun p => pal.rangeId ((g p.1 p.2).ModalIndex) = pr ∧ (g p.1 p.2).Region ≠ r) := by
        rw [Finset.mem_filter, Finset.mem_product, Finset.mem_range, Finset.mem_range]
        exact ⟨⟨hx, hy⟩, hrange, hreg⟩
      have hn1 : 1 ≤ n := by
        rw [← hn]
        unfold fillableCount
        exact Finset.card_pos.mpr ⟨_, hmem⟩
      obtain ⟨f2, rfl⟩ : ∃ f2, f1 = f2 + 1 := ⟨f1 - 1, by omega⟩
      set g0 := setPix g x y { g x y with Region := r } with hg0
      set G1 := (if 0 < x then floodFillFuel pal r w h pr (f2 + 1) (x - 1) y g0 else g0)
        with hG1
      set G2 := (if 0 < y then floodFillFuel pal r w h pr (f2 + 1) x (y - 1) G1 else G1)
        with hG2
      set G3 := (if x < w - 1 then floodFillFuel pal r w h pr (f2 + 1) (x + 1) y G2 else G2)
        with hG3
      set G4 := (if y < h - 1 then floodFillFuel pal r w h pr (f2 + 1) x (y + 1) G3 else G3)
        with hG4
      have roStep : ∀ (x2 y2 : ℕ) (cond : Prop) [Decidable cond] (g2 : Grid),
          regionOnly r g2
            (if cond then floodFillFuel pal r w h pr (f2 + 1) x2 y2 g2 else g2) := by
        intro x2 y2 cond inst g2
        by_cases hc2 : cond
        · rw [if_pos hc2]
          exact floodFillFuel_regionOnly pal r w h pr (f2 + 1) x2 y2 g2
        · rw [if_neg hc2]
          exact regionOnly_refl r g2
      have ro01 : regionOnly r g0 G1 := by rw [hG1]; exact roStep _ _ _ _
      have ro12 : regionOnly r G1 G2 := by rw [hG2]; exact roStep _ _ _ _
      have ro23 : regionOnly r G2 G3 := by rw [hG3]; exact roStep _ _ _ _
      have ro34 : regionOnly r G3 G4 := by rw [hG4]; exact roStep _ _ _ _
      have rog0 : regionOnly r g g0 := by rw [hg0]; exact regionOnly_setPix r g x y
      have roG1 : regionOnly r g G1 := regionOnly_trans rog0 ro01
      have roG2 : regionOnly r g G2 := regionOnly_trans roG1 ro12
      have roG3 : regionOnly r g G3 := regionOnly_trans roG2 ro23
      have hm0 : fillableCount pal pr r w h g0 < n := by
        rw [← hn, hg0]
        exact fillable_mark_lt pal pr r w h g x y hx hy hrange hreg
      have hm1 : fillableCount pal pr r w h G1 ≤ fillableCount pal pr r w h g0 :=
        regionOnly_fillable_le ro01
      have hm2 : fillableCount pal pr r w h G2 ≤ fillableCount pal pr r w h G1 :=
        regionOnly_fillable_le ro12
      have hm3 : fillableCount pal pr r w h G3 ≤ fillableCount pal pr r w h G2 :=
        regionOnly_fillable_le ro23
      by_cases hc0 : (g0 cx cy).Region = r
      · by_cases hcex : cx = x
        · by_cases hcey : cy = y
          · subst hcex
            subst hcey
            simp only [adj] at hadj
            rcases hadj with ⟨h1, h2 | h2⟩ | ⟨h1, h2 | h2⟩
            · subst h1
              subst h2
              have hcond : cy < h - 1 := by omega
              rw [hG4, if_pos hcond]
              have hr3 : pal.rangeId ((G3 cx (cy + 1)).ModalIndex) = pr := by
                have ht := regionOnly_rangeAt roG3 pal (cx, cy + 1)
                simp only [rangeAt] at ht hdr
                rw [ht]
                exact hdr
              exact floodFillFuel_marks pal r w h pr f2 cx (cy + 1) G3 hr3
            · subst h1
              have hcond : 0 < cy := by omega
              have hyd : cy - 1 = dy := by omega
              have hr1 : pal.rangeId ((G1 cx (cy - 1)).ModalIndex) = pr := by
                have ht := regionOnly_rangeAt roG1 pal (cx, cy - 1)
                simp only [rangeAt] at ht hdr
                rw [ht, hyd]
                exact hdr
              have hmark : (G2 cx (cy - 1)).Region = r := by
                rw [hG2, if_pos hcond]
                exact floodFillFuel_marks pal r w h pr f2 cx (cy - 1) G1 hr1
              have hmark3 : (G3 cx (cy - 1)).Region = r :=
                regionOnly_keeps_mark ro23 cx (cy - 1) hmark
              have hmark4 : (G4 cx (cy - 1)).Region = r :=
                regionOnly_keeps_mark ro34 cx (cy - 1) hmark3
              rw [← hyd]
              exact hmark4
            · subst h1
              subst h2
              have hcond : cx < w - 1 := by omega
              have hr2 : pal.rangeId ((G2 (cx + 1) cy).ModalIndex) = pr := by
                have ht := regionOnly_rangeAt roG2 pal (cx + 1, cy)
                simp only [rangeAt] at ht hdr
                rw [ht]
                exact hdr
              have hmark : (G3 (cx + 1) cy).Region = r := by
                rw [hG3, if_pos hcond]
                exact floodFillFuel_marks pal r w h pr f2 (cx + 1) cy G2 hr2
              exact regionOnly_keeps_mark ro34 (cx + 1) cy hmark
            · subst h1
              have hcond : 0 < cx := by omega
              have hxd : cx - 1 = dx := by omega
              have hr0 : pal.rangeId ((g0 (cx - 1) cy).ModalIndex) = pr := by
                have ht := regionOnly_rangeAt rog0 pal (cx - 1, cy)
                simp only [rangeAt] at ht hdr
                rw [ht, hxd]
                exact hdr
              have hmark : (G1 (cx - 1) cy).Region = r := by
                rw [hG1, if_pos hcond]
                exact floodFillFuel_marks pal r w h pr f2 (cx - 1) cy g0 hr0
              have hmark2 : (G2 (cx - 1) cy).Region = r :=
                regionOnly_keeps_mark ro12 (cx - 1) cy hmark
              have hmark3 : (G3 (cx - 1) cy).Region = r :=
                regionOnly_keeps_mark ro23 (cx - 1) cy hmark2
              have hmark4 : (G4 (cx - 1) cy).Region = r :=
                regionOnly_keeps_mark ro34 (cx - 1) cy hmark3
              rw [← hxd]
              exact hmark4
          · exfalso
            have heq := setPix_other g x y ({ g x y with Region := r }) cx cy (Or.inr hcey)
            rw [hg0, heq] at hc0
            exact hcg hc0
        · exfalso
          have heq := setPix_other g x y ({ g x y with Region := r }) cx cy (Or.inl hcex)
          rw [hg0, heq] at hc0
          exact hcg hc0
      · have sweep : ∀ (x2 y2 : ℕ) (cond : Prop) [Decidable cond] (g2 : Grid),
            (cond → x2 < w ∧ y2 < h) →
            regionOnly r g g2 →
            fillableCount pal pr r w h g2 ≤ fillableCount pal pr r w h g0 →
            (∀ ax ay, ax < w → ay < h → (g2 ax ay).Region = r → (g0 ax ay).Region ≠ r →
              ∀ bx by2, bx < w → by2 < h → adj (ax, ay) (bx, by2) →
                rangeAt pal g (bx, by2) = pr → (g2 bx by2).Region = r) →
            (∀ ax ay, ax < w → ay < h →
              (((if cond then floodFillFuel pal r w h pr (f2 + 1) x2 y2 g2 else g2))
                ax ay).Region = r →
              (g0 ax ay).Region ≠ r →
              ∀ bx by2, bx < w → by2 < h → adj (ax, ay) (bx, by2) →
                rangeAt pal g (bx, by2) = pr →
                (((if cond then floodFillFuel pal r w h pr (f2 + 1) x2 y2 g2 else g2))
                  bx by2).Region = r) := by
          intro x2 y2 cond inst g2 hb hrog2 hfg2 hgood ax ay hax hay har hag bx by2 hbx hby
            hadj2 hbr2
          by_cases hc2 : cond
          · rw [if_pos hc2] at har ⊢
            obtain ⟨hx2, hy2⟩ := hb hc2
            by_cases hold : (g2 ax ay).Region = r
            · have hmarked := hgood ax ay hax hay hold hag bx by2 hbx hby hadj2 hbr2
              exact regionOnly_keeps_mark
                (floodFillFuel_regionOnly pal r w h pr (f2 + 1) x2 y2 g2) bx by2 hmarked
            · have hrg2 : rangeAt pal g2 (bx, by2) = pr := by
                rw [regionOnly_rangeAt hrog2 pal (bx, by2)]
                exact hbr2
              exact ih (fillableCount pal pr r w h g2) (by omega) g2 x2 y2 (f2 + 1) rfl
                (by omega) hx2 hy2 ax ay hax hay har hold bx by2 hbx hby hadj2 hrg2
          · rw [if_neg hc2] at har ⊢
            exact hgood ax ay hax hay har hag bx by2 hbx hby hadj2 hbr2
        have s0 : ∀ ax ay, ax < w → ay < h → (g0 ax ay).Region = r → (g0 ax ay).Region ≠ r →
            ∀ bx by2, bx < w → by2 < h → adj (ax, ay) (bx, by2) →
              rangeAt pal g (bx, by2) = pr → (g0 bx by2).Region = r := by
          intro ax ay _ _ h1 h2
          exact absurd h1 h2
        have s1 := sweep (x - 1) y (0 < x) g0 (fun hc2 => ⟨by omega, hy⟩) rog0 (le_refl _) s0
        rw [← hG1] at s1
        have s2 := sweep x (y - 1) (0 < y) G1 (fun hc2 => ⟨hx, by omega⟩) roG1 hm1 s1
        rw [← hG2] at s2
        have s3 := sweep (x + 1) y (x < w - 1) G2 (fun hc2 => ⟨by omega, hy⟩) roG2
          (le_trans hm2 hm1) s2
        rw [← hG3] at s3
        have s4 := sweep x (y + 1) (y < h - 1) G3 (fun hc2 => ⟨hx, by omega⟩) roG3
          (le_trans hm3 (le_trans hm2 hm1)) s3
        rw [← hG4] at s4
        exact s4 cx cy hcx hcy hcr hc0 dx dy hdx hdy hadj hdr

end Gorender

namespace Gorender

/-- The fill measure never exceeds the cell count of the grid. -/
theorem fillableCount_le (pal : Palette) (pr : Option ℕ) (r : ℤ) (w h : ℕ) (g : Grid) :
    fillableCount pal pr r w h g ≤ w * h := by
  unfold fillableCount
  calc (((Finset.range w) ×ˢ (Finset.range h)).filter
      (fun p => pal.rangeId ((g p.1 p.2).ModalIndex) = pr ∧ (g p.1 p.2).Region ≠ r)).card
      ≤ ((Finset.range w) ×ˢ (Finset.range h)).card := Finset.card_filter_le _ _
    _ = w * h := by rw [Finset.card_product, Finset.card_range, Finset.card_range]

/-- Completeness of the flood fill: with ample fuel and no cell pre-marked
with the region id, every cell reachable from a matching seed ends marked. -/
theorem floodFillFuel_reach_marks (pal : Palette) (r : ℤ) (w h : ℕ) (pr : Option ℕ)
    (g : Grid) (x y f : ℕ) (hf : fillableCount pal pr r w h g < f)
    (hx : x < w) (hy : y < h) (hrange : pal.rangeId ((g x y).ModalIndex) = pr)
    (hnone : ∀ p q, p < w → q < h → (g p q).Region ≠ r) :
    ∀ c : ℕ × ℕ, reach pal g w h pr (x, y) c →
      ((floodFillFuel pal r w h pr f x y g) c.1 c.2).Region = r := by
  intro c hreach
  induction hreach with
  | refl =>
    obtain ⟨f1, hf1⟩ : ∃ f1, f = f1 + 1 := ⟨f - 1, by omega⟩
    rw [hf1]
    exact floodFillFuel_marks pal r w h pr f1 x y g hrange
  | tail hab hbc ihr =>
    rename_i b c2
    obtain ⟨hbB, hcB, hadj2, _hbr, hcr2⟩ := hbc
    exact floodFillFuel_closed pal r w h pr (fillableCount pal pr r w h g) g x y f rfl hf
      hx hy b.1 b.2 hbB.1 hbB.2 ihr (hnone b.1 b.2 hbB.1 hbB.2) c2.1 c2.2 hcB.1 hcB.2
      hadj2 hcr2

end Gorender

namespace Gorender

/-- One cell of the region-discovery scan (the body of the loop at
shader.go lines 156-184), as folded by regionPass. -/
def regionCell (defn : Definition) (w h x : ℕ) (st : Grid × Regions × ℤ) (y : ℕ) :
    Grid × Regions × ℤ :=
  if (st.1 x y).ModalIndex = 0 then st
  else if (st.1 x y).Region ≠ 0 then st
  else
    let pr := defn.Palette.rangeId ((st.1 x y).ModalIndex)
    let info := { zeroRegionInfo with Range := pr }
    (floodFill defn.Palette st.2.2 w h pr x y st.1,
     writeRegion st.2.1 st.2.2 info, st.2.2 + 1)

theorem regionPass_eq (defn : Definition) (w h : ℕ) (g0 : Grid) :
    regionPass defn w h g0 =
      (List.range w).foldl (fun st x => (List.range h).foldl (regionCell defn w h x) st)
        (g0, fun _ => none, 1) := rfl

/-- The invariant the region scan maintains: the id counter stays positive,
modal indices are untouched, every assigned region id is positive, below the
counter and sits on an in-bounds cell, and the cells of each assigned id are
exactly one reachability class of an in-bounds seed. -/
def passInv (pal : Palette) (w h : ℕ) (g0 : Grid) (st : Grid × Regions × ℤ) : Prop :=
  1 ≤ st.2.2 ∧
  (∀ p q : ℕ, (st.1 p q).ModalIndex = (g0 p q).ModalIndex) ∧
  (∀ p q : ℕ, (st.1 p q).Region = 0 ∨
    (1 ≤ (st.1 p q).Region ∧ (st.1 p q).Region < st.2.2 ∧ p < w ∧ q < h)) ∧
  (∀ rid : ℤ, 1 ≤ rid → rid < st.2.2 → ∃ s : ℕ × ℕ, inB w h s ∧
    ∀ c : ℕ × ℕ, inB w h c →
      ((st.1 c.1 c.2).Region = rid ↔ reach pal g0 w h (rangeAt pal g0 s) s c))

end Gorender

namespace Gorender

/-- One scan cell preserves the region invariant. -/
theorem passInv_cell (defn : Definition) (w h : ℕ) (g0 : Grid) (x y : ℕ)
    (hx : x < w) (hy : y < h) (st : Grid × Regions × ℤ)
    (hinv : passInv defn.Palette w h g0 st) :
    passInv defn.Palette w h g0 (regionCell defn w h x st y) := by
  unfold regionCell
  by_cases h1 : (st.1 x y).ModalIndex = 0
  · rw [if_pos h1]
    exact hinv
  · rw [if_neg h1]
    by_cases h2 : (st.1 x y).Region ≠ 0
    · rw [if_pos h2]
      exact hinv
    · rw [if_neg h2]
      push_neg at h2
      obtain ⟨hcur, hmodal, hbound, hspec⟩ := hinv
      set PR := defn.Palette.rangeId ((st.1 x y).ModalIndex) with hPR
      show passInv defn.Palette w h g0
        (floodFill defn.Palette st.2.2 w h PR x y st.1,
         writeRegion st.2.1 st.2.2 { zeroRegionInfo with Range := PR }, st.2.2 + 1)
      set g' := floodFill defn.Palette st.2.2 w h PR x y st.1 with hg'
      have hro : regionOnly st.2.2 st.1 g' := by
        rw [hg']
        unfold floodFill
        exact floodFillFuel_regionOnly defn.Palette st.2.2 w h PR (w * h + 1) x y st.1
      have hsound1 : ∀ p q, g' p q ≠ st.1 p q →
          reach defn.Palette st.1 w h PR (x, y) (p, q) ∧
          rangeAt defn.Palette st.1 (p, q) = PR := by
        rw [hg']
        unfold floodFill
        exact (floodFillFuel_sound defn.Palette st.2.2 w h PR (w * h + 1) x y st.1 hx hy).1
      have hpre : ∀ p q, p < w → q < h → (st.1 p q).Region ≠ st.2.2 := by
        intro p q hp hq
        rcases hbound p q with h3 | h3
        · rw [h3]
          omega
        · omega
      have hcomp : ∀ c : ℕ × ℕ, reach defn.Palette st.1 w h PR (x, y) c →
          (g' c.1 c.2).Region = st.2.2 := by
        intro c hc
        rw [hg']
        unfold floodFill
        exact floodFillFuel_reach_marks defn.Palette st.2.2 w h PR st.1 x y (w * h + 1)
          (by have := fillableCount_le defn.Palette PR st.2.2 w h st.1; omega) hx hy
          hPR.symm hpre c hc
      have hra : ∀ p : ℕ × ℕ, rangeAt defn.Palette st.1 p = rangeAt defn.Palette g0 p := by
        intro p
        unfold rangeAt
        rw [hmodal p.1 p.2]
      have hPRst : rangeAt defn.Palette st.1 (x, y) = PR := hPR.symm
      have hPRg0 : rangeAt defn.Palette g0 (x, y) = PR := by
        rw [← hra (x, y)]
        exact hPRst
      refine ⟨?_, ?_, ?_, ?_⟩
      · show 1 ≤ st.2.2 + 1
        omega
      · intro p q
        show (g' p q).ModalIndex = (g0 p q).ModalIndex
        rw [(regionOnly_fields hro p q).2.1, hmodal p q]
      · intro p q
        show (g' p q).Region = 0 ∨
          (1 ≤ (g' p q).Region ∧ (g' p q).Region < st.2.2 + 1 ∧ p < w ∧ q < h)
        rcases hro p q with hcase | hcase
        · rcases hbound p q with h3 | h3
          · left
            rw [hcase]
            exact h3
          · right
            rw [hcase]
            exact ⟨h3.1, by omega, h3.2.2.1, h3.2.2.2⟩
        · have hgr : (g' p q).Region = st.2.2 := by rw [hcase]
          have hsne : (st.1 p q).Region ≠ st.2.2 := by
            rcases hbound p q with h3 | h3
            · rw [h3]
              omega
            · omega
          have hne : g' p q ≠ st.1 p q := fun heq => hsne (heq ▸ hgr)
          obtain ⟨hreach', _⟩ := hsound1 p q hne
          have hinb : inB w h (p, q) := reach_inB_end hreach' ⟨hx, hy⟩
          right
          rw [hgr]
          exact ⟨hcur, by omega, hinb.1, hinb.2⟩
      · intro rid hr1 hr2
        have hr2' : rid < st.2.2 + 1 := hr2
        by_cases hr : rid = st.2.2
        · subst hr
          refine ⟨(x, y), ⟨hx, hy⟩, ?_⟩
          intro c hcB
          show (g' c.1 c.2).Region = st.2.2 ↔
            reach defn.Palette g0 w h (rangeAt defn.Palette g0 (x, y)) (x, y) c
          rw [hPRg0]
          constructor
          · intro hcr
            have hsne : (st.1 c.1 c.2).Region ≠ st.2.2 := hpre c.1 c.2 hcB.1 hcB.2
            have hne : g' c.1 c.2 ≠ st.1 c.1 c.2 := fun heq => hsne (heq ▸ hcr)
            obtain ⟨hreach', _⟩ := hsound1 c.1 c.2 hne
            exact (reach_congr hra (x, y) (c.1, c.2)).mp hreach'
          · intro hreach0
            exact hcomp c ((reach_congr hra (x, y) c).mpr hreach0)
        · have hrlt : rid < st.2.2 := by omega
          obtain ⟨s, hsB, hiff⟩ := hspec rid hr1 hrlt
          refine ⟨s, hsB, ?_⟩
          intro c hcB
          show (g' c.1 c.2).Region = rid ↔
            reach defn.Palette g0 w h (rangeAt defn.Palette g0 s) s c
          constructor
          · intro hcr
            rcases hro c.1 c.2 with hcase | hcase
            · exact (hiff c hcB).mp (hcase ▸ hcr)
            · exfalso
              have hgr : (g' c.1 c.2).Region = st.2.2 := by rw [hcase]
              omega
          · intro hreach0
            have hst : (st.1 c.1 c.2).Region = rid := (hiff c hcB).mpr hreach0
            rcases hro c.1 c.2 with hcase | hcase
            · rw [hcase]
              exact hst
            · exfalso
              have hgr : (g' c.1 c.2).Region = st.2.2 := by rw [hcase]
              have hsne2 : (st.1 c.1 c.2).Region ≠ st.2.2 := by omega
              have hne : g' c.1 c.2 ≠ st.1 c.1 c.2 := fun heq => hsne2 (heq ▸ hgr)
              obtain ⟨hreachC, hrngC⟩ := hsound1 c.1 c.2 hne
              have hrg0C : rangeAt defn.Palette g0 (c.1, c.2) = PR := by
                rw [← hra (c.1, c.2)]
                exact hrngC
              have hrsC : rangeAt defn.Palette g0 (c.1, c.2) = rangeAt defn.Palette g0 s :=
                reach_range_end hreach0 rfl
              have hPRs : rangeAt defn.Palette g0 s = PR := by
                rw [← hrsC]
                exact hrg0C
              have hreachC0 : reach defn.Palette g0 w h PR (x, y) (c.1, c.2) :=
                (reach_congr hra (x, y) (c.1, c.2)).mp hreachC
              have hreachS : reach defn.Palette g0 w h PR s c := by
                rw [← hPRs]
                exact hreach0
              have hreachSxy : reach defn.Palette g0 w h PR s (x, y) :=
                reach_trans hreachS (reach_symm hreachC0)
              have h5 : reach defn.Palette g0 w h (rangeAt defn.Palette g0 s) s (x, y) := by
                rw [hPRs]
                exact hreachSxy
              have hxyR : (st.1 x y).Region = rid := (hiff (x, y) ⟨hx, hy⟩).mpr h5
              omega

end Gorender

namespace Gorender

/-- The region scan establishes its invariant from any zero-Region grid. -/
theorem regionPass_inv (defn : Definition) (w h : ℕ) (g0 : Grid)
    (h0 : ∀ p q, (g0 p q).Region = 0) :
    passInv defn.Palette w h g0 (regionPass defn w h g0) := by
  rw [regionPass_eq]
  refine foldlInvMem (passInv defn.Palette w h g0) _ (List.range w) ?_ _ ?_
  · intro st x hxmem hst
    refine foldlInvMem (passInv defn.Palette w h g0) _ (List.range h) ?_ _ hst
    intro st2 y hymem hst2
    exact passInv_cell defn w h g0 x y (List.mem_range.mp hxmem) (List.mem_range.mp hymem)
      st2 hst2
  · refine ⟨le_refl 1, fun p q => rfl, fun p q => Or.inl (h0 p q),
      fun rid h1 h2 => absurd h1 ?_⟩
    have h2' : rid < 1 := h2
    omega

/-- A scan cell never clears an assigned region. -/
theorem regionCell_nonzero (defn : Definition) (w h x y px py : ℕ)
    (st : Grid × Regions × ℤ) (hcur : 1 ≤ st.2.2)
    (hnz : (st.1 px py).Region ≠ 0) :
    ((regionCell defn w h x st y).1 px py).Region ≠ 0 := by
  unfold regionCell
  by_cases h1 : (st.1 x y).ModalIndex = 0
  · rw [if_pos h1]
    exact hnz
  · rw [if_neg h1]
    by_cases h2 : (st.1 x y).Region ≠ 0
    · rw [if_pos h2]
      exact hnz
    · rw [if_neg h2]
      show ((floodFill defn.Palette st.2.2 w h
        (defn.Palette.rangeId ((st.1 x y).ModalIndex)) x y st.1) px py).Region ≠ 0
      have hro : regionOnly st.2.2 st.1 (floodFill defn.Palette st.2.2 w h
          (defn.Palette.rangeId ((st.1 x y).ModalIndex)) x y st.1) := by
        unfold floodFill
        exact floodFillFuel_regionOnly _ _ _ _ _ _ _ _ _
      rcases hro px py with hcase | hcase
      · rw [hcase]
        exact hnz
      · rw [hcase]
        show st.2.2 ≠ 0
        omega

/-- Scanning an in-bounds cell with nonzero modal index leaves it with a
nonzero region id. -/
theorem regionCell_visit (defn : Definition) (w h x y : ℕ)
    (st : Grid × Regions × ℤ) (hcur : 1 ≤ st.2.2)
    (hmz : (st.1 x y).ModalIndex ≠ 0) :
    ((regionCell defn w h x st y).1 x y).Region ≠ 0 := by
  unfold regionCell
  rw [if_neg hmz]
  by_cases h2 : (st.1 x y).Region ≠ 0
  · rw [if_pos h2]
    exact h2
  · rw [if_neg h2]
    show ((floodFill defn.Palette st.2.2 w h
      (defn.Palette.rangeId ((st.1 x y).ModalIndex)) x y st.1) x y).Region ≠ 0
    have hmark : ((floodFill defn.Palette st.2.2 w h
        (defn.Palette.rangeId ((st.1 x y).ModalIndex)) x y st.1) x y).Region = st.2.2 := by
      unfold floodFill
      exact floodFillFuel_marks defn.Palette st.2.2 w h _ (w * h) x y st.1 rfl
    rw [hmark]
    omega

end Gorender

namespace Gorender

/-- Scanning a column marks the modal-nonzero cells of that column and
keeps the invariant. -/
theorem regionRow_nonzero (defn : Definition) (w h : ℕ) (g0 : Grid) (x y0 : ℕ)
    (hx : x < w) (hmz : (g0 x y0).ModalIndex ≠ 0) :
    ∀ l : List ℕ, (∀ y ∈ l, y < h) → y0 ∈ l →
      ∀ st, passInv defn.Palette w h g0 st →
        passInv defn.Palette w h g0 (l.foldl (regionCell defn w h x) st) ∧
        ((l.foldl (regionCell defn w h x) st).1 x y0).Region ≠ 0 := by
  intro l
  induction l with
  | nil =>
    intro _ hy0
    exact absurd hy0 (List.not_mem_nil y0)
  | cons y rest ih =>
    intro hl hy0 st hst
    have hyh : y < h := hl y (List.mem_cons_self y rest)
    have hst1 : passInv defn.Palette w h g0 (regionCell defn w h x st y) :=
      passInv_cell defn w h g0 x y hx hyh st hst
    by_cases hyy : y = y0
    · subst hyy
      have hnz1 : ((regionCell defn w h x st y).1 x y).Region ≠ 0 :=
        regionCell_visit defn w h x y st hst.1 (by rw [hst.2.1 x y]; exact hmz)
      have hpres : ∀ st2 y2, y2 ∈ rest →
          (passInv defn.Palette w h g0 st2 ∧ (st2.1 x y).Region ≠ 0) →
          (passInv defn.Palette w h g0 (regionCell defn w h x st2 y2) ∧
            ((regionCell defn w h x st2 y2).1 x y).Region ≠ 0) := by
        intro st2 y2 hy2 hP
        have hy2h : y2 < h := hl y2 (List.mem_cons_of_mem y hy2)
        exact ⟨passInv_cell defn w h g0 x y2 hx hy2h st2 hP.1,
          regionCell_nonzero defn w h x y2 x y st2 hP.1.1 hP.2⟩
      exact foldlInvMem
        (fun st2 => passInv defn.Palette w h g0 st2 ∧ (st2.1 x y).Region ≠ 0)
        (regionCell defn w h x) rest hpres (regionCell defn w h x st y) ⟨hst1, hnz1⟩
    · have hy0' : y0 ∈ rest := by
        rcases List.mem_cons.mp hy0 with heq | hmem
        · exact absurd heq.symm hyy
        · exact hmem
      exact ih (fun y2 hy2 => hl y2 (List.mem_cons_of_mem y hy2)) hy0'
        (regionCell defn w h x st y) hst1

/-- The whole scan marks every in-bounds cell with nonzero modal index. -/
theorem regionScan_nonzero (defn : Definition) (w h : ℕ) (g0 : Grid) (x0 y0 : ℕ)
    (hy0 : y0 < h) (hmz : (g0 x0 y0).ModalIndex ≠ 0) :
    ∀ l : List ℕ, (∀ x ∈ l, x < w) → x0 ∈ l →
      ∀ st, passInv defn.Palette w h g0 st →
        passInv defn.Palette w h g0
          (l.foldl (fun st x => (List.range h).foldl (regionCell defn w h x) st) st) ∧
        ((l.foldl (fun st x => (List.range h).foldl (regionCell defn w h x) st) st).1
          x0 y0).Region ≠ 0 := by
  intro l
  induction l with
  | nil =>
    intro _ hx0
    exact absurd hx0 (List.not_mem_nil x0)
  | cons x rest ih =>
    intro hl hx0 st hst
    have hxw : x < w := hl x (List.mem_cons_self x rest)
    have hcol : ∀ st2, passInv defn.Palette w h g0 st2 →
        passInv defn.Palette w h g0 ((List.range h).foldl (regionCell defn w h x) st2) := by
      intro st2 h2
      refine foldlInvMem (passInv defn.Palette w h g0) (regionCell defn w h x)
        (List.range h) ?_ st2 h2
      intro st3 y3 hy3 h3
      exact passInv_cell defn w h g0 x y3 hxw (List.mem_range.mp hy3) st3 h3
    by_cases hxx : x = x0
    · subst hxx
      have hrow := regionRow_nonzero defn w h g0 x y0 hxw hmz (List.range h)
        (fun y2 hy2 => List.mem_range.mp hy2) (List.mem_range.mpr hy0) st hst
      have hpres : ∀ st2 x2, x2 ∈ rest →
          (passInv defn.Palette w h g0 st2 ∧ (st2.1 x y0).Region ≠ 0) →
          (passInv defn.Palette w h g0
              ((List.range h).foldl (regionCell defn w h x2) st2) ∧
            (((List.range h).foldl (regionCell defn w h x2) st2).1 x y0).Region ≠ 0) := by
        intro st2 x2 hx2 hP
        have hx2w : x2 < w := hl x2 (List.mem_cons_of_mem x hx2)
        refine foldlInvMem
          (fun st3 => passInv defn.Palette w h g0 st3 ∧ (st3.1 x y0).Region ≠ 0)
          (regionCell defn w h x2) (List.range h) ?_ st2 hP
        intro st3 y3 hy3 h3
        exact ⟨passInv_cell defn w h g0 x2 y3 hx2w (List.mem_range.mp hy3) st3 h3.1,
          regionCell_nonzero defn w h x2 y3 x y0 st3 h3.1.1 h3.2⟩
      exact foldlInvMem
        (fun st3 => passInv defn.Palette w h g0 st3 ∧ (st3.1 x y0).Region ≠ 0)
        (fun st4 x4 => (List.range h).foldl (regionCell defn w h x4) st4) rest hpres
        ((List.range h).foldl (regionCell defn w h x) st) hrow
    · have hx0' : x0 ∈ rest := by
        rcases List.mem_cons.mp hx0 with heq | hmem
        · exact absurd heq.symm hxx
        · exact hmem
      exact ih (fun x2 hx2 => hl x2 (List.mem_cons_of_mem x hx2)) hx0'
        ((List.range h).foldl (regionCell defn w h x) st) (hcol st hst)

end Gorender

namespace Gorender

/-- claim C3 (amended): over any grid whose Region fields start at zero,
the region scan leaves modal indices unchanged; every in-bounds pixel with
nonzero ModalIndex receives a nonzero Region; every pixel reachable from a
region pixel by 4-connected steps through pixels whose ModalIndex has the
identical palette range carries the same Region; and any two pixels sharing
a nonzero Region id are reachable from one another by such steps, so no
region id is shared between distinct connected components. (The claim's
remaining direction — ModalIndex 0 forcing Region 0 — is false, theorem
C3_counterexample: a modal-0 pixel whose entry shares the seed entry's
range identity is flooded into the region.) -/
theorem C3_region_segmentation (defn : Definition) (w h : ℕ) (g0 : Grid)
    (h0 : ∀ p q, (g0 p q).Region = 0) :
    (∀ p q : ℕ, ((regionPass defn w h g0).1 p q).ModalIndex = (g0 p q).ModalIndex) ∧
    (∀ p q : ℕ, p < w → q < h → (g0 p q).ModalIndex ≠ 0 →
      ((regionPass defn w h g0).1 p q).Region ≠ 0) ∧
    (∀ p c : ℕ × ℕ,
      ((regionPass defn w h g0).1 p.1 p.2).Region ≠ 0 →
      reach defn.Palette (regionPass defn w h g0).1 w h
        (rangeAt defn.Palette (regionPass defn w h g0).1 p) p c →
      ((regionPass defn w h g0).1 c.1 c.2).Region =
        ((regionPass defn w h g0).1 p.1 p.2).Region) ∧
    (∀ p q : ℕ × ℕ,
      ((regionPass defn w h g0).1 p.1 p.2).Region ≠ 0 →
      ((regionPass defn w h g0).1 p.1 p.2).Region =
        ((regionPass defn w h g0).1 q.1 q.2).Region →
      reach defn.Palette (regionPass defn w h g0).1 w h
        (rangeAt defn.Palette (regionPass defn w h g0).1 p) p q) := by
  obtain ⟨hcur, hmodal, hbound, hspec⟩ := regionPass_inv defn w h g0 h0
  have hrange_pres : ∀ c : ℕ × ℕ,
      rangeAt defn.Palette (regionPass defn w h g0).1 c = rangeAt defn.Palette g0 c := by
    intro c
    unfold rangeAt
    rw [hmodal c.1 c.2]
  refine ⟨hmodal, ?_, ?_, ?_⟩
  · intro p q hp hq hmz
    rw [regionPass_eq]
    have hbase : passInv defn.Palette w h g0 (g0, fun _ => none, 1) := by
      refine ⟨le_refl 1, fun p q => rfl, fun p q => Or.inl (h0 p q),
        fun rid h1 h2 => absurd h1 ?_⟩
      have h2' : rid < 1 := h2
      omega
    exact (regionScan_nonzero defn w h g0 p q hq hmz (List.range w)
      (fun x2 hx2 => List.mem_range.mp hx2) (List.mem_range.mpr hp)
      (g0, fun _ => none, 1) hbase).2
  · intro p c hpr hreach
    rcases hbound p.1 p.2 with h3 | h3
    · exact absurd h3 hpr
    · obtain ⟨h31, h32, h33, h34⟩ := h3
      obtain ⟨s, hsB, hiff⟩ := hspec _ h31 h32
      have hpB : inB w h p := ⟨h33, h34⟩
      have hps : reach defn.Palette g0 w h (rangeAt defn.Palette g0 s) s p :=
        (hiff p hpB).mp rfl
      have hrr : rangeAt defn.Palette g0 p = rangeAt defn.Palette g0 s :=
        reach_range_end hps rfl
      have hreach0 : reach defn.Palette g0 w h (rangeAt defn.Palette g0 s) p c := by
        refine (reach_congr hrange_pres p c).mp ?_
        rw [← hrr, ← hrange_pres p]
        exact hreach
      have hsc : reach defn.Palette g0 w h (rangeAt defn.Palette g0 s) s c :=
        reach_trans hps hreach0
      have hcB : inB w h c := reach_inB_end hsc hsB
      exact (hiff c hcB).mpr hsc
  · intro p q hpr heq
    rcases hbound p.1 p.2 with h3 | h3
    · exact absurd h3 hpr
    · obtain ⟨h31, h32, h33, h34⟩ := h3
      obtain ⟨s, hsB, hiff⟩ := hspec _ h31 h32
      have hpB : inB w h p := ⟨h33, h34⟩
      have hps : reach defn.Palette g0 w h (rangeAt defn.Palette g0 s) s p :=
        (hiff p hpB).mp rfl
      have hqB : inB w h q := by
        rcases hbound q.1 q.2 with h4 | h4
        · rw [h4] at heq
          exfalso
          omega
        · exact ⟨h4.2.2.1, h4.2.2.2⟩
      have hqs : reach defn.Palette g0 w h (rangeAt defn.Palette g0 s) s q :=
        (hiff q hqB).mp heq.symm
      have hpq0 : reach defn.Palette g0 w h (rangeAt defn.Palette g0 s) p q :=
        reach_trans (reach_symm hps) hqs
      have hrr : rangeAt defn.Palette g0 p = rangeAt defn.Palette g0 s :=
        reach_range_end hps rfl
      rw [hrange_pres p, hrr]
      exact (reach_congr hrange_pres p q).mpr hpq0

end Gorender

namespace Gorender

/-- A palette whose entries 0 and 1 both carry the nil range, so the flood
fill treats them as the identical range object. -/
def c3palette : Palette :=
  ⟨[⟨RGB.zero, none⟩, ⟨RGB.zero, none⟩], [], [], [], [],
   fun _ => false, fun _ => false⟩

def c3defn : Definition := ⟨c3palette, 1, false, ⟨1, 1/2, 0, 0, 0, false, false⟩⟩

/-- A 2 by 1 grid after shading: pixel (0,0) has ModalIndex 1, pixel (1,0)
has ModalIndex 0; all Region fields are zero. -/
def c3grid : Grid := setPix zeroGrid 0 0 { zeroShaderInfo with ModalIndex := 1 }

theorem c3grid_region0 : ∀ p q, (c3grid p q).Region = 0 := by
  intro p q
  unfold c3grid
  by_cases hp : p = 0
  · by_cases hq : q = 0
    · subst hp
      subst hq
      rw [setPix_self]
      rfl
    · rw [setPix_other _ _ _ _ _ _ (Or.inr hq)]
      rfl
  · rw [setPix_other _ _ _ _ _ _ (Or.inl hp)]
    rfl

/-- Claim C3 counterexample: the claimed equivalence ModalIndex = 0 iff
Region = 0 fails. Pixel (1,0) has ModalIndex 0, but the flood fill seeded
at pixel (0,0) (ModalIndex 1, range nil) reaches it because entry 0 carries
the identical nil range — the guard at shader.go line 385 compares range
identity, not index nonzeroness — so it ends with Region 1, not 0. -/
theorem C3_counterexample :
    ((regionPass c3defn 2 1 c3grid).1 1 0).ModalIndex = 0 ∧
    ((regionPass c3defn 2 1 c3grid).1 1 0).Region = 1 :=
  ⟨by decide, by decide⟩

end Gorender

namespace Gorender

/-- Witness: the amended C3 theorem applied to the concrete 2 by 1 scene of
c3grid, its zero-Region hypothesis discharged by c3grid_region0. -/
theorem C3_region_segmentation_witness :
    (∀ p q, (c3grid p q).Region = 0) ∧
    ((∀ p q : ℕ,
        ((regionPass c3defn 2 1 c3grid).1 p q).ModalIndex = (c3grid p q).ModalIndex) ∧
     (∀ p q : ℕ, p < 2 → q < 1 → (c3grid p q).ModalIndex ≠ 0 →
        ((regionPass c3defn 2 1 c3grid).1 p q).Region ≠ 0) ∧
     (∀ p c : ℕ × ℕ,
        ((regionPass c3defn 2 1 c3grid).1 p.1 p.2).Region ≠ 0 →
        reach c3defn.Palette (regionPass c3defn 2 1 c3grid).1 2 1
          (rangeAt c3defn.Palette (regionPass c3defn 2 1 c3grid).1 p) p c →
        ((regionPass c3defn 2 1 c3grid).1 c.1 c.2).Region =
          ((regionPass c3defn 2 1 c3grid).1 p.1 p.2).Region) ∧
     (∀ p q : ℕ × ℕ,
        ((regionPass c3defn 2 1 c3grid).1 p.1 p.2).Region ≠ 0 →
        ((regionPass c3defn 2 1 c3grid).1 p.1 p.2).Region =
          ((regionPass c3defn 2 1 c3grid).1 q.1 q.2).Region →
        reach c3defn.Palette (regionPass c3defn 2 1 c3grid).1 2 1
          (rangeAt c3defn.Palette (regionPass c3defn 2 1 c3grid).1 p) p q)) :=
  ⟨c3grid_region0, C3_region_segmentation c3defn 2 1 c3grid c3grid_region0⟩

end Gorender
